import Mathlib

/-!
# pmem-csi: the port-forward dialer (`test/e2e/pod/dial.go`)

A shallow embedding of the address codec (`Addr.String`, `ParseAddr`, `addrRegex`),
of `Dialer.DialContainerPort` and of the `stream` connection adapter. The fake device
manager of `pkg/pmem-device-manager/pmd-fake.go` follows in namespace `Pmdmanager`.

Go strings are embedded as Lean `String`s (sequences of Unicode code points), Go `int` as
`Int` with the word size `intSize` (`strconv.IntSize`, 32 or 64) made explicit wherever a
conversion can saturate, and Go `error` values as the data each `fmt.Errorf` site formats.
The Kubernetes client and the SPDY transport are external: their answers are given by an
environment (`Env`) and every call made on them is recorded as an `Event`.
-/

namespace Pod

/-! ## Addresses -/

/-- Addr (dial.go:135): all relevant parameters for a certain port in a pod. -/
structure Addr where
  Namespace : String
  PodName : String
  Port : Int
  deriving DecidableEq, Repr

/-- The error values built in dial.go; each constructor is one `fmt.Errorf` call and carries
the argument formatted into the message (for the `%v` sites: the message of the cause). -/
inductive DialError where
  /-- Format `"%q: must match the format <namespace>.<pod>:<port number>"` (dial.go:153). -/
  | mustMatchFormat (addr : String)
  /-- Format `"create round tripper: %v"` (dial.go:81). -/
  | createRoundTripper (cause : String)
  /-- Format `"dialer failed: %v"` (dial.go:87). -/
  | dialerFailed (cause : String)
  /-- Format `"error creating error stream: %v"` (dial.go:106). -/
  | creatingErrorStream (cause : String)
  /-- Format `"error creating data stream: %v"` (dial.go:123). -/
  | creatingDataStream (cause : String)
  deriving DecidableEq, Repr

/-! ## The regular expression

`addrRegex` only needs an anchored sequence of literal characters and capture groups of the
shape `(class+)`. Matching is the backtracking, greedy (leftmost-first) semantics of Go's
`regexp` package; `^` and `$` match at the beginning and the end of the text only (no `m`
flag), and a negated class also matches a newline. -/

/-- One item of an anchored pattern `^ item ... item $`. -/
inductive RegexItem where
  /-- A literal character, such as `\.` or `:`. -/
  | lit (c : Char)
  /-- A capture group `(class+)`, the class given by its membership test. -/
  | groupPlus (cls : Char → Bool)

/-- What a `(class+)` group does once it stops after consuming `acc`: at least one character
must have been consumed, and the remaining items must match the remaining text. -/
def stopGroup (k : List Char → Option (List (List Char))) (acc rest : List Char) :
    Option (List (List Char)) :=
  if acc.isEmpty then none else (k rest).map (fun gs => acc :: gs)

/-- Greedy `(class+)` followed by the continuation `k`: consume as many characters of the
class as possible, and give characters back one at a time while the continuation fails. -/
def matchPlus (cls : Char → Bool) (k : List Char → Option (List (List Char))) :
    List Char → List Char → Option (List (List Char))
  | acc, [] => stopGroup k acc []
  | acc, x :: xs =>
    if cls x then
      match matchPlus cls k (acc ++ [x]) xs with
      | some gs => some gs
      | none => stopGroup k acc (x :: xs)
    else stopGroup k acc (x :: xs)

/-- Match the items against the whole text (the pattern is anchored on both sides); the
result lists the text captured by each group, in order. -/
def matchItems : List RegexItem → List Char → Option (List (List Char))
  | [], s => if s.isEmpty then some [] else none
  | RegexItem.lit c :: items, s =>
    match s with
    | [] => none
    | x :: xs => if x = c then matchItems items xs else none
  | RegexItem.groupPlus cls :: items, s => matchPlus cls (matchItems items) [] s

/-- Regexp.FindStringSubmatch for an anchored pattern: `none` (Go: `nil`) when the text does
not match, otherwise the whole match (here the whole text) followed by the submatches. -/
def FindStringSubmatch (re : List RegexItem) (s : String) : Option (List String) :=
  (matchItems re s.data).map (fun gs => s :: gs.map String.mk)

/-- The pattern `^([^\.]+)\.([^:]+):(\d+)$` (dial.go:163); `\d` is `[0-9]`. -/
def addrRegex : List RegexItem :=
  [ RegexItem.groupPlus (fun c => c != '.'), RegexItem.lit '.',
    RegexItem.groupPlus (fun c => c != ':'), RegexItem.lit ':',
    RegexItem.groupPlus Char.isDigit ]

/-! ## Decimal conversions of the Go standard library -/

/-- The two errors of package strconv. -/
inductive NumError where
  | ErrSyntax
  | ErrRange
  deriving DecidableEq, Repr

/-- Value of a run of decimal digits, most significant digit first. -/
def decimalValue (ds : List Char) : Nat :=
  ds.foldl (fun n c => 10 * n + (c.toNat - '0'.toNat)) 0

/-- strconv.Atoi for an `int` of `intSize` bits: an optional sign followed by one or more
decimal digits; anything else gives `(0, ErrSyntax)`, and a value outside the `int` range
gives the nearest bound of the range together with `ErrRange`. -/
def Atoi (intSize : Nat) (s : String) : Int × Option NumError :=
  let sign : Bool × List Char :=
    match s.data with
    | '-' :: r => (true, r)
    | '+' :: r => (false, r)
    | r => (false, r)
  let neg := sign.1
  let body := sign.2
  if body.isEmpty || !body.all Char.isDigit then (0, some NumError.ErrSyntax)
  else
    let un : Nat := decimalValue body
    let cutoff : Nat := 2 ^ (intSize - 1)
    if !neg && decide (cutoff ≤ un) then (((cutoff - 1 : Nat) : Int), some NumError.ErrRange)
    else if neg && decide (cutoff < un) then (-(cutoff : Int), some NumError.ErrRange)
    else (if neg then -(un : Int) else (un : Int), none)

/-- The verb `%d` of package fmt applied to an `int`: decimal digits, `-` in front of a
negative number. -/
def formatInt (n : Int) : String :=
  if n < 0 then "-" ++ Nat.repr n.natAbs else Nat.repr n.toNat

/-! ## The address codec -/

/-- Addr.String (dial.go:146): `fmt.Sprintf("%s.%s:%d", a.Namespace, a.PodName, a.Port)`. -/
def Addr.String (a : Addr) : String :=
  a.Namespace ++ "." ++ a.PodName ++ ":" ++ formatInt a.Port

/-- ParseAddr (dial.go:150). The error of `strconv.Atoi` is discarded, as in the source. -/
def ParseAddr (intSize : Nat) (addr : String) : Except DialError Addr :=
  match FindStringSubmatch addrRegex addr with
  | none => Except.error (DialError.mustMatchFormat addr)
  | some parts =>
    let port := (Atoi intSize (parts.getD 3 "")).1
    Except.ok { Namespace := parts.getD 1 "", PodName := parts.getD 2 "", Port := port }

/-! ## The external collaborators

The REST client, the SPDY round tripper and the multiplexed connection belong to client-go.
Their answers are given by an `Env`; each answer may depend on everything that happened
before (the `history`). Connections and streams are named by the handles the environment
hands out. -/

/-- http.Header, as far as dial.go uses it: an ordered list of key/value pairs. Keys are
kept as given (net/http canonicalises them on `Set` and on lookup alike). -/
structure Header where
  entries : List (String × String)
  deriving DecidableEq, Repr

/-- The empty header, `http.Header{}`. -/
def Header.empty : Header := ⟨[]⟩

/-- Header.Set: replace the value stored under the key, or add the key. -/
def Header.Set (h : Header) (key value : String) : Header :=
  if h.entries.any (fun kv => kv.1 == key) then
    ⟨h.entries.map (fun kv => if kv.1 == key then (key, value) else kv)⟩
  else ⟨h.entries ++ [(key, value)]⟩

/-- Header.Get: the value stored under the key, the empty string when there is none. -/
def Header.Get (h : Header) (key : String) : String :=
  ((h.entries.find? (fun kv => kv.1 == key)).map (fun kv => kv.2)).getD ""

/-- The constant `v1.StreamType` of k8s.io/api/core/v1. -/
def v1.StreamType : String := "streamType"
/-- The constant `v1.StreamTypeData`. -/
def v1.StreamTypeData : String := "data"
/-- The constant `v1.StreamTypeError`. -/
def v1.StreamTypeError : String := "error"
/-- The constant `v1.PortHeader`. -/
def v1.PortHeader : String := "port"
/-- The constant `v1.PortForwardRequestIDHeader`. -/
def v1.PortForwardRequestIDHeader : String := "requestID"
/-- The constant `portforward.PortForwardProtocolV1Name`. -/
def portforward.PortForwardProtocolV1Name : String := "portforward.k8s.io"

/-- The type `schema.GroupVersion`. -/
structure GroupVersion where
  Group : String := ""
  Version : String := ""
  deriving DecidableEq, Repr

/-- A `runtime.NegotiatedSerializer`: `scheme.Codecs` or some other serializer. -/
inductive NegotiatedSerializer where
  | Codecs
  | other (name : String)
  deriving DecidableEq, Repr

/-- The two fields of `rest.Config` that dial.go reads and writes (`nil` is `none`), the
rest of the configuration being carried along untouched. -/
structure RestConfig where
  Host : String
  GroupVersion : Option GroupVersion
  NegotiatedSerializer : Option NegotiatedSerializer
  deriving DecidableEq, Repr

/-- A `kubernetes.Interface`, identified by name. -/
structure Client where
  name : String
  deriving DecidableEq, Repr

/-- The request built with `restClient.Post().Resource(..).Namespace(..).Name(..).SubResource(..)`. -/
structure Request where
  client : Client
  Resource : String
  Namespace : String
  Name : String
  SubResource : String
  deriving DecidableEq, Repr

/-- A call made on an external collaborator. -/
inductive Event where
  /-- Call of `spdy.RoundTripperFor(restConfig)`. -/
  | RoundTripperFor (config : RestConfig)
  /-- Call of `dialer.Dial(protocol)` on the SPDY dialer built for the request: the upgrade. -/
  | Dial (req : Request) (protocol : String)
  /-- Call of `CreateStream(headers)` on a connection. -/
  | CreateStream (conn : Nat) (headers : Header)
  /-- Call of `Close()` on a stream. -/
  | StreamClose (stream : Nat)
  /-- Call of `Close()` on a connection. -/
  | ConnClose (conn : Nat)
  deriving DecidableEq, Repr

/-- The answers of the external collaborators, each as a function of the calls made so far.
An error is given by its message; a successful upgrade or `CreateStream` gives the handle of
the new connection or stream. -/
structure Env where
  RoundTripperFor : List Event → RestConfig → Option String
  Dial : List Event → Request → String → Except String Nat
  CreateStream : List Event → Nat → Header → Except String Nat
  StreamClose : List Event → Nat → Option String
  ConnClose : List Event → Nat → Option String
  /-- Result of `ioutil.ReadAll` on a stream: the bytes read and the error, if any. -/
  ReadAll : List Event → Nat → String × Option String

/-- A `context.Context`, as far as a dialer could observe it: `Err()` is `none` while the
context is live and the reason once it is cancelled or past its deadline. -/
structure Context where
  Err : Option String
  deriving DecidableEq, Repr

/-- A `logr.Logger`, identified by name. -/
structure Logger where
  name : String
  deriving DecidableEq, Repr

/-- The two kinds of entries a `logr.Logger` takes: `Info` and `Error`. -/
inductive Severity where
  | info
  | error
  deriving DecidableEq, Repr

/-- One entry handed to the logging sink: its severity, the message of the error it reports
(empty for an `Info` entry) and the text of the entry. -/
structure LogEntry where
  severity : Severity
  err : String
  msg : String
  deriving DecidableEq, Repr

/-- Logger.Error of logr: one entry of error severity. -/
def Logger.Error (_logger : Logger) (err msg : String) : LogEntry :=
  { severity := Severity.error, err := err, msg := msg }

/-! ## The connection adapter -/

/-- The struct `stream` (dial.go:165): the address, the embedded data stream and the
connection that carries it. -/
structure stream where
  addr : Addr
  Stream : Nat
  streamConn : Nat
  deriving DecidableEq, Repr

/-- The zero value `Addr{}`. -/
def Addr.zero : Addr := { Namespace := "", PodName := "", Port := 0 }

/-- Method stream.Close (dial.go:173): both closes are called, their results are dropped and
`nil` is returned. The result pairs the returned error with the calls made. -/
def stream.Close (env : Env) (history : List Event) (s : stream) :
    Option String × List Event :=
  let _streamErr := env.StreamClose history s.Stream
  let _connErr := env.ConnClose (history ++ [Event.StreamClose s.Stream]) s.streamConn
  (none, [Event.StreamClose s.Stream, Event.ConnClose s.streamConn])

/-- Method stream.RemoteAddr (dial.go:183). -/
def stream.RemoteAddr (s : stream) : Addr := s.addr

/-- Whether `Close()` has been called on the stream in the given history. -/
def streamClosed (history : List Event) (id : Nat) : Bool :=
  decide (Event.StreamClose id ∈ history)

/-- Whether `Close()` has been called on the connection in the given history. -/
def connClosed (history : List Event) (id : Nat) : Bool :=
  decide (Event.ConnClose id ∈ history)

/-! ## The dialer -/

/-- Dialer (dial.go:56). The configuration is held through a pointer, so the value here is
the one the pointer leads to; a method that writes through it returns the dialer anew. -/
structure Dialer where
  client : Client
  restConfig : RestConfig
  deriving DecidableEq, Repr

/-- NewDialer (dial.go:48). -/
def NewDialer (client : Client) (restConfig : RestConfig) : Dialer :=
  { client := client, restConfig := restConfig }

/-- What a call of DialContainerPort leaves behind: the two results, the receiver (with the
configuration it points to) after the call, the calls made on the collaborators in order,
and the goroutine started on the error stream, if any (its logger and its stream). -/
structure DialResult where
  conn : Option stream
  finalErr : Option DialError
  dialer : Dialer
  events : List Event
  monitor : Option (Logger × Nat)
  deriving DecidableEq, Repr

/-- Body of the goroutine of dial.go:109-117, given what `ioutil.ReadAll(errorStream)`
returned. -/
def errorStreamMonitor (logger : Logger) (read : String × Option String) : List LogEntry :=
  match read.2 with
  | some err => [logger.Error err "error reading from error stream"]
  | none =>
    if read.1.length > 0 then
      [logger.Error read.1 "an error occurred connecting to the remote port"]
    else []

/-- What the goroutine started by a dial writes to the log: it reads its error stream to
the end (the answer of the environment, at whatever point `history` the read completes) and
runs the body above; a dial that started no goroutine logs nothing. -/
def DialResult.monitorLog (env : Env) (history : List Event) (r : DialResult) : List LogEntry :=
  match r.monitor with
  | none => []
  | some (logger, errorStream) => errorStreamMonitor logger (env.ReadAll history errorStream)

/-- The deferred function of dial.go:90-94: close the connection when the call is about to
return an error. -/
def closeOnError (streamConn : Nat) (r : DialResult) : DialResult :=
  if r.finalErr.isSome then { r with events := r.events ++ [Event.ConnClose streamConn] } else r

/-- The writes of dial.go:65-70 through the pointer `d.restConfig`: a `nil` GroupVersion
becomes `&schema.GroupVersion{}`, a `nil` NegotiatedSerializer becomes `scheme.Codecs`. -/
def withDefaults (restConfig : RestConfig) : RestConfig :=
  let restConfig :=
    if restConfig.GroupVersion.isNone then { restConfig with GroupVersion := some {} }
    else restConfig
  let restConfig :=
    if restConfig.NegotiatedSerializer.isNone then
      { restConfig with NegotiatedSerializer := some NegotiatedSerializer.Codecs }
    else restConfig
  restConfig

/-- The request of dial.go:74-78: the `portforward` subresource of the pod. -/
def portForwardRequest (restClient : Client) (addr : Addr) : Request :=
  { client := restClient, Resource := "pods", Namespace := addr.Namespace,
    Name := addr.PodName, SubResource := "portforward" }

/-- Dialer.DialContainerPort (dial.go:62). `history` holds the calls made on the
collaborators before this one. The context is a parameter of the method and is not used by
its body. -/
def Dialer.DialContainerPort (env : Env) (history : List Event) (d : Dialer)
    (_ctx : Context) (logger : Logger) (addr : Addr) : DialResult :=
  let restClient := d.client
  let restConfig := withDefaults d.restConfig
  let d : Dialer := { d with restConfig := restConfig }
  let req := portForwardRequest restClient addr
  let ev1 := [Event.RoundTripperFor restConfig]
  match env.RoundTripperFor history restConfig with
  | some err =>
    { conn := none, finalErr := some (DialError.createRoundTripper err), dialer := d,
      events := ev1, monitor := none }
  | none =>
    let ev2 := ev1 ++ [Event.Dial req portforward.PortForwardProtocolV1Name]
    match env.Dial (history ++ ev1) req portforward.PortForwardProtocolV1Name with
    | Except.error err =>
      { conn := none, finalErr := some (DialError.dialerFailed err), dialer := d,
        events := ev2, monitor := none }
    | Except.ok streamConn =>
      let requestID := "1"
      closeOnError streamConn <|
        -- create error stream
        let headers := Header.empty
        let headers := headers.Set v1.StreamType v1.StreamTypeError
        let headers := headers.Set v1.PortHeader (formatInt addr.Port)
        let headers := headers.Set v1.PortForwardRequestIDHeader requestID
        let ev3 := ev2 ++ [Event.CreateStream streamConn headers]
        match env.CreateStream (history ++ ev2) streamConn headers with
        | Except.error err =>
          { conn := none, finalErr := some (DialError.creatingErrorStream err), dialer := d,
            events := ev3, monitor := none }
        | Except.ok errorStream =>
          let ev4 := ev3 ++ [Event.StreamClose errorStream]
          let _closeErr := env.StreamClose (history ++ ev3) errorStream
          let monitor := some (logger, errorStream)
          -- create data stream
          let headers := headers.Set v1.StreamType v1.StreamTypeData
          let ev5 := ev4 ++ [Event.CreateStream streamConn headers]
          match env.CreateStream (history ++ ev4) streamConn headers with
          | Except.error err =>
            { conn := none, finalErr := some (DialError.creatingDataStream err), dialer := d,
              events := ev5, monitor := monitor }
          | Except.ok dataStream =>
            { conn := some { addr := Addr.zero, Stream := dataStream, streamConn := streamConn },
              finalErr := none, dialer := d, events := ev5, monitor := monitor }

/-- The `DialContext` hook of NewTransport (dial.go:36): parse the address, then dial. When
the address does not parse, DialContainerPort is not called and nothing happens. -/
def NewTransport.DialContext (intSize : Nat) (env : Env) (history : List Event)
    (logger : Logger) (client : Client) (restConfig : RestConfig)
    (ctx : Context) (addr : String) : DialResult :=
  let dialer := NewDialer client restConfig
  match ParseAddr intSize addr with
  | Except.error err =>
    { conn := none, finalErr := some err, dialer := dialer, events := [], monitor := none }
  | Except.ok a => dialer.DialContainerPort env history ctx logger a

/-! ## Mock collaborators

Concrete environments on which the dialer can be evaluated. -/

/-- Number of `CreateStream` calls in a history. -/
def createStreamCount (history : List Event) : Nat :=
  (history.filter (fun e => match e with
    | Event.CreateStream _ _ => true
    | _ => false)).length

/-- A mock transport. Each of the four steps of a dial fails with the given message, or
succeeds when there is none: the upgrade then gives connection 0, and `CreateStream` gives
the stream numbered by the `CreateStream` calls made before. Closing never fails and the
error stream ends without a payload. -/
def mockEnv (roundTripper dial errorStream dataStream : Option String) : Env where
  RoundTripperFor := fun _ _ => roundTripper
  Dial := fun _ _ _ =>
    match dial with
    | some err => Except.error err
    | none => Except.ok 0
  CreateStream := fun history _ headers =>
    match (if headers.Get v1.StreamType == v1.StreamTypeError then errorStream else dataStream) with
    | some err => Except.error err
    | none => Except.ok (createStreamCount history)
  StreamClose := fun _ _ => none
  ConnClose := fun _ _ => none
  ReadAll := fun _ _ => ("", none)

/-- The mock transport on which every step succeeds and the error stream yields the given
read result. -/
def mockEnvReading (read : String × Option String) : Env :=
  { mockEnv none none none none with ReadAll := fun _ _ => read }

/-- A dialer for the mock transport, with nothing set in its configuration. -/
def mockDialer : Dialer :=
  NewDialer { name := "client" } { Host := "apiserver", GroupVersion := none, NegotiatedSerializer := none }

/-- The address `default.redis-0:6379`. -/
def redisAddr : Addr := { Namespace := "default", PodName := "redis-0", Port := 6379 }

/-- A live context. -/
def liveContext : Context := { Err := none }

/-- A context that has been cancelled. -/
def cancelledContext : Context := { Err := some "context canceled" }

/-- The headers of the error stream request (dial.go:97-100). -/
def errorStreamHeaders (addr : Addr) : Header :=
  ((Header.empty.Set v1.StreamType v1.StreamTypeError).Set v1.PortHeader
    (formatInt addr.Port)).Set v1.PortForwardRequestIDHeader "1"

/-- The headers of the data stream request: those of the error stream with the stream type
set anew (dial.go:120). -/
def dataStreamHeaders (addr : Addr) : Header :=
  (errorStreamHeaders addr).Set v1.StreamType v1.StreamTypeData

end Pod

/-! # The fake device manager (`pkg/pmem-device-manager/pmd-fake.go`)

Values of type `uint64` are natural numbers, and every `uint64` operation that can leave the
range is taken modulo `2^64`. The map of devices is a list of key/value pairs; the mutex,
the context and the `usage` argument play no part in what the methods compute. -/

namespace Pmdmanager

/-- Number of values of a `uint64`. -/
def uint64Size : Nat := 2 ^ 64

/-- PmemDeviceInfo, as far as pmd-fake.go uses it: the three fields it fills in. -/
structure PmemDeviceInfo where
  VolumeId : String
  Path : String
  Size : Nat
  deriving DecidableEq, Repr

/-- Capacity: the four numbers that GetCapacity reports. -/
structure Capacity where
  Available : Nat
  MaxVolumeSize : Nat
  Managed : Nat
  Total : Nat
  deriving DecidableEq, Repr

/-- The errors returned by the fake manager: the three values of package pmemerr that it
uses, and the error formatted by newFake (carrying the rejected percentage). -/
inductive Error where
  | DeviceExists
  | NotEnoughSpace
  | DeviceNotFound
  | invalidPmemPercentage (pmemPercentage : Nat)
  deriving DecidableEq, Repr

/-- A Go `map[string]*PmemDeviceInfo`: pairs of a key and the value stored under it. -/
abbrev DeviceMap := List (String × PmemDeviceInfo)

/-- Map lookup `m[key]`: the value and `ok`, or nothing. -/
def DeviceMap.index (m : DeviceMap) (key : String) : Option PmemDeviceInfo :=
  (m.find? (fun kv => kv.1 == key)).map (fun kv => kv.2)

/-- Map assignment `m[key] = value`: the binding replaces any earlier one of the key. -/
def DeviceMap.assign (m : DeviceMap) (key : String) (value : PmemDeviceInfo) : DeviceMap :=
  (key, value) :: m.filter (fun kv => kv.1 != key)

/-- The builtin `delete(m, key)`. -/
def DeviceMap.delete (m : DeviceMap) (key : String) : DeviceMap :=
  m.filter (fun kv => kv.1 != key)

/-- The struct fakeDM (pmd-fake.go:20), without its mutex. -/
structure fakeDM where
  capacity : Nat
  devices : DeviceMap
  deriving DecidableEq, Repr

/-- The constant totalCapacity (pmd-fake.go:29): 1 TiB. -/
def totalCapacity : Nat := 1024 * 1024 * 1024 * 1024

/-- The function newFake (pmd-fake.go:35); the product is a `uint64` product. -/
def newFake (pmemPercentage : Nat) : Except Error fakeDM :=
  if pmemPercentage > 100 then Except.error (Error.invalidPmemPercentage pmemPercentage)
  else
    Except.ok
      { capacity := (pmemPercentage % uint64Size * totalCapacity) % uint64Size / 100
        devices := [] }

/-- Method getCapacity (pmd-fake.go:57): `remaining -= dev.Size` for each device, as
`uint64` subtraction. -/
def fakeDM.getCapacity (dm : fakeDM) : Capacity :=
  let remaining :=
    dm.devices.foldl
      (fun remaining dev => (remaining + uint64Size - dev.2.Size % uint64Size) % uint64Size)
      dm.capacity
  { Available := remaining, MaxVolumeSize := remaining, Managed := dm.capacity,
    Total := totalCapacity }

/-- Method GetCapacity (pmd-fake.go:50). -/
def fakeDM.GetCapacity (dm : fakeDM) : Capacity × Option Error :=
  (dm.getCapacity, none)

/-- Method CreateDevice (pmd-fake.go:70): the two results and the manager after the call.
The path is `FakeDevicePathPrefix + volumeId`, the prefix being a constant of the package
declared in another file. -/
def fakeDM.CreateDevice (FakeDevicePathPrefix : String) (dm : fakeDM) (volumeId : String)
    (size : Nat) : (Nat × Option Error) × fakeDM :=
  match dm.devices.index volumeId with
  | some _ => ((0, some Error.DeviceExists), dm)
  | none =>
    if size > dm.getCapacity.MaxVolumeSize then ((0, some Error.NotEnoughSpace), dm)
    else
      ((size, none),
        { dm with
          devices := dm.devices.assign volumeId
            { VolumeId := volumeId, Size := size, Path := FakeDevicePathPrefix ++ volumeId } })

/-- Method DeleteDevice (pmd-fake.go:91): remove the device, whether it exists or not. -/
def fakeDM.DeleteDevice (dm : fakeDM) (volumeId : String) (_flush : Bool) :
    Option Error × fakeDM :=
  (none, { dm with devices := dm.devices.delete volumeId })

/-- Method GetDevice (pmd-fake.go:113). -/
def fakeDM.GetDevice (dm : fakeDM) (volumeId : String) : Except Error PmemDeviceInfo :=
  match dm.devices.index volumeId with
  | none => Except.error Error.DeviceNotFound
  | some dev => Except.ok dev

/-- A call of one of the two methods that change the manager. -/
inductive Call where
  | CreateDevice (volumeId : String) (size : Nat)
  | DeleteDevice (volumeId : String) (flush : Bool)
  deriving DecidableEq, Repr

/-- The manager after one call. -/
def fakeDM.step (FakeDevicePathPrefix : String) (dm : fakeDM) : Call → fakeDM
  | Call.CreateDevice volumeId size => (dm.CreateDevice FakeDevicePathPrefix volumeId size).2
  | Call.DeleteDevice volumeId flush => (dm.DeleteDevice volumeId flush).2

/-- The manager after a sequence of calls, first call first. -/
def fakeDM.run (FakeDevicePathPrefix : String) (dm : fakeDM) (calls : List Call) : fakeDM :=
  calls.foldl (fakeDM.step FakeDevicePathPrefix) dm

/-- Sum of the sizes of all registered devices. -/
def fakeDM.usedSize (dm : fakeDM) : Nat :=
  (dm.devices.map (fun kv => kv.2.Size)).sum

/-- A manager of 100 bytes with two devices, of 10 and of 20 bytes. -/
def twoDevices : fakeDM :=
  { capacity := 100
    devices := [("a", { VolumeId := "a", Path := "/fake/a", Size := 10 }),
                ("b", { VolumeId := "b", Path := "/fake/b", Size := 20 })] }

end Pmdmanager

namespace Pod

/-! ## Lemmas on the regular expression -/

/-- When the continuation rejects every text that starts with a character of the class,
giving characters back never helps: the group captures the longest run of the class. -/
theorem matchPlus_eq_takeWhile (cls : Char → Bool) (k : List Char → Option (List (List Char)))
    (hk : ∀ x xs, cls x = true → k (x :: xs) = none) (s : List Char) :
    ∀ acc, matchPlus cls k acc s
      = stopGroup k (acc ++ s.takeWhile cls) (s.dropWhile cls) := by
  induction s with
  | nil => intro acc; simp [matchPlus]
  | cons x xs ih =>
    intro acc
    by_cases hx : cls x = true
    · have hstop : stopGroup k acc (x :: xs) = none := by
        simp [stopGroup, hk x xs hx]
      rw [matchPlus, if_pos hx, ih, hstop]
      simp only [List.takeWhile_cons, List.dropWhile_cons, hx, if_true, List.append_assoc,
        List.singleton_append]
      cases stopGroup k (acc ++ x :: List.takeWhile cls xs) (List.dropWhile cls xs) <;> rfl
    · rw [matchPlus, if_neg hx]
      simp [List.takeWhile_cons, List.dropWhile_cons, hx]

theorem takeWhile_run (p : Char → Bool) (l r : List Char) (x : Char)
    (hl : ∀ c ∈ l, p c = true) (hx : p x = false) :
    (l ++ x :: r).takeWhile p = l := by
  induction l with
  | nil => simp [List.takeWhile_cons, hx]
  | cons a l ih =>
    have ha : p a = true := hl a (List.mem_cons_self _ _)
    have := ih (fun c hc => hl c (List.mem_cons_of_mem _ hc))
    simp [List.takeWhile_cons, ha, this]

theorem dropWhile_run (p : Char → Bool) (l r : List Char) (x : Char)
    (hl : ∀ c ∈ l, p c = true) (hx : p x = false) :
    (l ++ x :: r).dropWhile p = x :: r := by
  induction l with
  | nil => simp [List.dropWhile_cons, hx]
  | cons a l ih =>
    have ha : p a = true := hl a (List.mem_cons_self _ _)
    have := ih (fun c hc => hl c (List.mem_cons_of_mem _ hc))
    simp [List.dropWhile_cons, ha, this]

theorem takeWhile_all (p : Char → Bool) (l : List Char) (hl : ∀ c ∈ l, p c = true) :
    l.takeWhile p = l ∧ l.dropWhile p = [] := by
  induction l with
  | nil => simp
  | cons a l ih =>
    have ha : p a = true := hl a (List.mem_cons_self _ _)
    have := ih (fun c hc => hl c (List.mem_cons_of_mem _ hc))
    simp [List.takeWhile_cons, List.dropWhile_cons, ha, this]

theorem stopGroup_nonempty (k : List Char → Option (List (List Char))) (acc rest : List Char)
    (h : acc.isEmpty = false) : stopGroup k acc rest = (k rest).map (fun gs => acc :: gs) := by
  simp [stopGroup, h]

theorem matchItems_lit_accept (c : Char) (items : List RegexItem) (xs : List Char) :
    matchItems (RegexItem.lit c :: items) (c :: xs) = matchItems items xs := by
  simp [matchItems]

theorem matchItems_lit_reject (c : Char) (items : List RegexItem) (x : Char) (xs : List Char)
    (hx : (x != c) = true) : matchItems (RegexItem.lit c :: items) (x :: xs) = none := by
  have hne : ¬ x = c := by simpa using hx
  simp [matchItems, hne]

theorem matchItems_group (cls : Char → Bool) (c : Char) (items : List RegexItem)
    (s : List Char) (hcls : ∀ x, cls x = (x != c)) :
    matchItems (RegexItem.groupPlus cls :: RegexItem.lit c :: items) s
      = stopGroup (matchItems (RegexItem.lit c :: items)) (s.takeWhile cls) (s.dropWhile cls) := by
  rw [matchItems, matchPlus_eq_takeWhile]
  · simp
  · intro x xs hx
    exact matchItems_lit_reject c items x xs (by rw [← hcls]; exact hx)

theorem matchItems_last_group (cls : Char → Bool) (s : List Char) :
    matchItems [RegexItem.groupPlus cls] s
      = stopGroup (matchItems []) (s.takeWhile cls) (s.dropWhile cls) := by
  rw [matchItems, matchPlus_eq_takeWhile]
  · simp
  · intro x xs _
    simp [matchItems]

/-- A text of the form `scope.target:digits` matches `addrRegex`, with these three
submatches. -/
theorem matchItems_addrRegex_of_form (scope target digits : List Char)
    (hs : scope ≠ []) (hsd : '.' ∉ scope) (ht : target ≠ []) (htc : ':' ∉ target)
    (hd : digits ≠ []) (hdd : ∀ c ∈ digits, c.isDigit = true) :
    matchItems addrRegex (scope ++ '.' :: (target ++ ':' :: digits))
      = some [scope, target, digits] := by
  have h1 : ∀ c ∈ scope, (c != '.') = true := by
    intro c hc
    simp only [bne_iff_ne, ne_eq]
    rintro rfl
    exact hsd hc
  have h2 : ∀ c ∈ target, (c != ':') = true := by
    intro c hc
    simp only [bne_iff_ne, ne_eq]
    rintro rfl
    exact htc hc
  have e1 : scope.isEmpty = false := by cases scope <;> simp_all
  have e2 : target.isEmpty = false := by cases target <;> simp_all
  have e3 : digits.isEmpty = false := by cases digits <;> simp_all
  unfold addrRegex
  rw [matchItems_group _ _ _ _ (fun _ => rfl), takeWhile_run _ _ _ _ h1 (by decide),
    dropWhile_run _ _ _ _ h1 (by decide), stopGroup_nonempty _ _ _ e1, matchItems_lit_accept,
    matchItems_group _ _ _ _ (fun _ => rfl), takeWhile_run _ _ _ _ h2 (by decide),
    dropWhile_run _ _ _ _ h2 (by decide), stopGroup_nonempty _ _ _ e2, matchItems_lit_accept,
    matchItems_last_group, (takeWhile_all _ _ hdd).1, (takeWhile_all _ _ hdd).2,
    stopGroup_nonempty _ _ _ e3]
  simp [matchItems]

theorem stopGroup_eq_some (k : List Char → Option (List (List Char))) (acc rest : List Char)
    (gs : List (List Char)) (h : stopGroup k acc rest = some gs) :
    acc ≠ [] ∧ ∃ gs1, k rest = some gs1 ∧ gs = acc :: gs1 := by
  unfold stopGroup at h
  cases acc with
  | nil => simp at h
  | cons a acc =>
    cases hk : k rest with
    | none => simp [hk] at h
    | some gs1 =>
      refine ⟨by simp, gs1, rfl, ?_⟩
      simpa [hk] using h.symm

theorem matchItems_lit_eq_some (c : Char) (items : List RegexItem) (s : List Char)
    (gs : List (List Char)) (h : matchItems (RegexItem.lit c :: items) s = some gs) :
    ∃ xs, s = c :: xs ∧ matchItems items xs = some gs := by
  cases s with
  | nil => simp [matchItems] at h
  | cons x xs =>
    by_cases hx : x = c
    · subst hx
      exact ⟨xs, rfl, by simpa [matchItems] using h⟩
    · simp [matchItems, hx] at h

/-- Every text that matches `addrRegex` has the form `scope.target:digits`, and the three
parts are the submatches. -/
theorem form_of_matchItems_addrRegex (s : List Char) (gs : List (List Char))
    (h : matchItems addrRegex s = some gs) :
    ∃ scope target digits : List Char,
      s = scope ++ '.' :: (target ++ ':' :: digits) ∧ scope ≠ [] ∧ '.' ∉ scope ∧
      target ≠ [] ∧ ':' ∉ target ∧ digits ≠ [] ∧ (∀ c ∈ digits, c.isDigit = true) ∧
      gs = [scope, target, digits] := by
  unfold addrRegex at h
  rw [matchItems_group _ _ _ _ (fun _ => rfl)] at h
  obtain ⟨hs, gs1, h1, rfl⟩ := stopGroup_eq_some _ _ _ _ h
  obtain ⟨r1, hr1, h1⟩ := matchItems_lit_eq_some _ _ _ _ h1
  rw [matchItems_group _ _ _ _ (fun _ => rfl)] at h1
  obtain ⟨ht, gs2, h2, rfl⟩ := stopGroup_eq_some _ _ _ _ h1
  obtain ⟨r2, hr2, h2⟩ := matchItems_lit_eq_some _ _ _ _ h2
  rw [matchItems_last_group] at h2
  obtain ⟨hd, gs3, h3, rfl⟩ := stopGroup_eq_some _ _ _ _ h2
  have hrest : r2.dropWhile Char.isDigit = [] := by
    cases hdw : r2.dropWhile Char.isDigit with
    | nil => rfl
    | cons x xs => simp [hdw, matchItems] at h3
  have hgs3 : gs3 = [] := by
    rw [hrest] at h3
    simpa [matchItems] using h3.symm
  have hsplit1 := List.takeWhile_append_dropWhile (fun c => c != '.') s
  have hsplit2 := List.takeWhile_append_dropWhile (fun c => c != ':') r1
  have hsplit3 := List.takeWhile_append_dropWhile Char.isDigit r2
  rw [hrest, List.append_nil] at hsplit3
  refine ⟨s.takeWhile (fun c => c != '.'), r1.takeWhile (fun c => c != ':'), r2, ?_, hs, ?_,
    ht, ?_, ?_, ?_, ?_⟩
  · conv_lhs => rw [← hsplit1, hr1, ← hsplit2, hr2]
  · intro hmem
    simpa using List.mem_takeWhile_imp hmem
  · intro hmem
    simpa using List.mem_takeWhile_imp hmem
  · rw [← hsplit3]; exact hd
  · intro c hc
    rw [← hsplit3] at hc
    exact List.mem_takeWhile_imp hc
  · rw [hgs3, hsplit3]

/-! ## Lemmas on the decimal conversions -/

theorem isDigit_not_sign (d : Char) (hd : d.isDigit = true) : d ≠ '-' ∧ d ≠ '+' := by
  constructor <;> rintro rfl <;> exact absurd hd (by decide)

/-- On a non-empty run of digits `Atoi` returns the value of the run, saturated at the
largest `int`. -/
theorem Atoi_digits (intSize : Nat) (ds : List Char) (hne : ds ≠ [])
    (hall : ∀ c ∈ ds, c.isDigit = true) :
    (Atoi intSize (String.mk ds)).1
      = ((min (decimalValue ds) (2 ^ (intSize - 1) - 1) : Nat) : Int) := by
  cases ds with
  | nil => exact absurd rfl hne
  | cons d ds =>
    obtain ⟨hm, hp⟩ := isDigit_not_sign d (hall d (List.mem_cons_self _ _))
    have hall2 : (d :: ds).all Char.isDigit = true := by
      rw [List.all_eq_true]; exact hall
    have hpos : 0 < 2 ^ (intSize - 1) := Nat.pow_pos (by decide)
    unfold Atoi
    split
    · rename_i r heq
      simp only [List.cons.injEq] at heq
      exact absurd heq.1 hm
    · rename_i r heq
      simp only [List.cons.injEq] at heq
      exact absurd heq.1 hp
    · simp only [hall2, List.isEmpty_cons, Bool.not_true, Bool.or_self, Bool.false_eq_true,
        if_false, Bool.not_false, Bool.true_and, Bool.false_and, decide_eq_true_eq]
      by_cases hle : 2 ^ (intSize - 1) ≤ decimalValue (d :: ds)
      · rw [if_pos hle]
        omega
      · rw [if_neg hle]
        simp only [Nat.cast_inj]
        omega

theorem foldl_decimal (b : List Char) : ∀ v : Nat,
    b.foldl (fun n c => 10 * n + (c.toNat - '0'.toNat)) v
      = v * 10 ^ b.length + decimalValue b := by
  induction b with
  | nil => intro v; simp [decimalValue]
  | cons c b ih =>
    intro v
    have h0 := ih (10 * 0 + (c.toNat - '0'.toNat))
    have hv := ih (10 * v + (c.toNat - '0'.toNat))
    simp only [decimalValue, List.foldl_cons, List.length_cons] at h0 hv ⊢
    rw [hv, h0]
    ring

theorem decimalValue_cons (c : Char) (b : List Char) :
    decimalValue (c :: b) = (c.toNat - '0'.toNat) * 10 ^ b.length + decimalValue b := by
  have h := foldl_decimal b (10 * 0 + (c.toNat - '0'.toNat))
  simp only [decimalValue, List.foldl_cons] at h ⊢
  rw [h]
  ring

theorem digitChar_decimal :
    ∀ m < 10, (Nat.digitChar m).isDigit = true ∧ (Nat.digitChar m).toNat - '0'.toNat = m := by
  decide

/-- Writing a number in base ten in front of digits gives digits. -/
theorem toDigitsCore_isDigit (fuel : Nat) :
    ∀ (n : Nat) (acc : List Char), (∀ c ∈ acc, c.isDigit = true) →
      ∀ c ∈ Nat.toDigitsCore 10 fuel n acc, c.isDigit = true := by
  induction fuel with
  | zero => intro n acc hacc; simpa [Nat.toDigitsCore] using hacc
  | succ fuel ih =>
    intro n acc hacc
    have hcons : ∀ c ∈ Nat.digitChar (n % 10) :: acc, c.isDigit = true := by
      intro c hc
      rcases List.mem_cons.mp hc with h | h
      · rw [h]; exact (digitChar_decimal (n % 10) (Nat.mod_lt _ (by decide))).1
      · exact hacc c h
    by_cases hq : n / 10 = 0
    · simpa [Nat.toDigitsCore, hq] using hcons
    · simpa [Nat.toDigitsCore, hq] using ih (n / 10) _ hcons

/-- Writing a number never shortens what was written before. -/
theorem toDigitsCore_length_ge (fuel : Nat) :
    ∀ (n : Nat) (acc : List Char), acc.length ≤ (Nat.toDigitsCore 10 fuel n acc).length := by
  induction fuel with
  | zero => intro n acc; simp [Nat.toDigitsCore]
  | succ fuel ih =>
    intro n acc
    by_cases hq : n / 10 = 0
    · simp [Nat.toDigitsCore, hq]
    · have := ih (n / 10) (Nat.digitChar (n % 10) :: acc)
      simp only [Nat.toDigitsCore, hq, if_false]
      simp only [List.length_cons] at this
      omega

/-- With enough fuel, the digits written in front of `acc` have the value of the number. -/
theorem toDigitsCore_value (fuel : Nat) :
    ∀ (n : Nat) (acc : List Char), n < fuel →
      decimalValue (Nat.toDigitsCore 10 fuel n acc) = n * 10 ^ acc.length + decimalValue acc := by
  induction fuel with
  | zero => intro n acc h; omega
  | succ fuel ih =>
    intro n acc hn
    have hd := (digitChar_decimal (n % 10) (Nat.mod_lt _ (by decide))).2
    by_cases hq : n / 10 = 0
    · have hlt : n % 10 = n := by omega
      simp only [Nat.toDigitsCore, hq, if_true]
      rw [decimalValue_cons, hd, hlt]
    · simp only [Nat.toDigitsCore, hq, if_false]
      rw [ih (n / 10) _ (by omega), decimalValue_cons, hd, List.length_cons, pow_succ]
      have hsplit : n = 10 * (n / 10) + n % 10 := (Nat.div_add_mod n 10).symm
      generalize 10 ^ acc.length = p at *
      generalize decimalValue acc = v at *
      nth_rewrite 3 [hsplit]
      ring

/-- The decimal rendering of a natural number is a non-empty run of digits with that
value. -/
theorem repr_decimal (n : Nat) :
    ∃ ds : List Char, Nat.repr n = String.mk ds ∧ ds ≠ [] ∧
      (∀ c ∈ ds, c.isDigit = true) ∧ decimalValue ds = n := by
  refine ⟨Nat.toDigits 10 n, rfl, ?_, ?_, ?_⟩
  · intro hnil
    have hlen := toDigitsCore_length_ge n (n / 10) [Nat.digitChar (n % 10)]
    have hnil2 := congrArg List.length hnil
    by_cases hq : n / 10 = 0
    · simp [Nat.toDigits, Nat.toDigitsCore, hq] at hnil2
    · simp only [Nat.toDigits, Nat.toDigitsCore, hq, if_false, List.length_nil] at hnil2
      simp only [List.length_singleton] at hlen
      omega
  · exact toDigitsCore_isDigit (n + 1) n [] (by simp)
  · have := toDigitsCore_value (n + 1) n [] (by omega)
    simpa [decimalValue] using this

/-! ## The address codec: parsing a text of the form `scope.target:digits` -/

theorem data_ne_nil (s : String) (h : s ≠ "") : s.data ≠ [] := by
  intro hd
  apply h
  cases s
  simp_all

theorem form_data (scope target digits : String) :
    (scope ++ "." ++ target ++ ":" ++ digits).data
      = scope.data ++ '.' :: (target.data ++ ':' :: digits.data) := by
  simp [String.data_append]

/-- ParseAddr on a text of the form `scope.target:digits`: the two names are returned as
they are, the port is the value of the digits saturated at the largest `int`. -/
theorem ParseAddr_of_form (intSize : Nat) (scope target digits : String)
    (hs : scope ≠ "") (hsd : '.' ∉ scope.data) (ht : target ≠ "") (htc : ':' ∉ target.data)
    (hd : digits ≠ "") (hdd : ∀ c ∈ digits.data, c.isDigit = true) :
    ParseAddr intSize (scope ++ "." ++ target ++ ":" ++ digits)
      = Except.ok { Namespace := scope, PodName := target,
                    Port := ((min (decimalValue digits.data) (2 ^ (intSize - 1) - 1) : Nat) : Int) } := by
  have hm := matchItems_addrRegex_of_form scope.data target.data digits.data
    (data_ne_nil _ hs) hsd (data_ne_nil _ ht) htc (data_ne_nil _ hd) hdd
  have ha := Atoi_digits intSize digits.data (data_ne_nil _ hd) hdd
  simp only [ParseAddr, FindStringSubmatch, form_data, hm, Option.map_some', List.map_cons,
    List.map_nil]
  simp only [List.getD_cons_succ, List.getD_cons_zero]
  rw [ha]

/-- ParseAddr fails exactly on the texts that `addrRegex` does not match, and then with the
error that quotes the text. -/
theorem ParseAddr_error_of_no_match (intSize : Nat) (s : String)
    (h : matchItems addrRegex s.data = none) :
    ParseAddr intSize s = Except.error (DialError.mustMatchFormat s) := by
  simp [ParseAddr, FindStringSubmatch, h]

theorem ParseAddr_ok_of_match (intSize : Nat) (s : String) (gs : List (List Char))
    (h : matchItems addrRegex s.data = some gs) :
    ∃ a, ParseAddr intSize s = Except.ok a := by
  simp [ParseAddr, FindStringSubmatch, h]

/-- C1: for every address whose Namespace and PodName are non-empty and contain neither `.`
nor `:`, and whose Port is in `[0, 2^31)`, parsing the serialized address succeeds and gives
the address back (for an `int` of at least 32 bits). -/
theorem ParseAddr_String_roundtrip (intSize : Nat) (a : Addr) (hsize : 32 ≤ intSize)
    (hns : a.Namespace ≠ "") (hnsd : '.' ∉ a.Namespace.data) (_hnsc : ':' ∉ a.Namespace.data)
    (hpod : a.PodName ≠ "") (_hpodd : '.' ∉ a.PodName.data) (hpodc : ':' ∉ a.PodName.data)
    (hlo : 0 ≤ a.Port) (hhi : a.Port < 2 ^ 31) :
    ParseAddr intSize a.String = Except.ok a := by
  obtain ⟨ds, hrepr, hne, hdig, hval⟩ := repr_decimal a.Port.toNat
  have hfmt : formatInt a.Port = String.mk ds := by
    simp [formatInt, not_lt.mpr hlo, hrepr]
  have hds : String.mk ds ≠ "" := by
    intro h
    apply hne
    have := congrArg String.data h
    simpa using this
  have hpow : (2 : Nat) ^ 31 ≤ 2 ^ (intSize - 1) :=
    Nat.pow_le_pow_right (by decide) (by omega)
  have hnat : a.Port.toNat < 2 ^ 31 := by
    have : (a.Port.toNat : Int) = a.Port := Int.toNat_of_nonneg hlo
    have h2 : ((2 ^ 31 : Nat) : Int) = 2 ^ 31 := by norm_num
    omega
  unfold Addr.String
  rw [hfmt, ParseAddr_of_form intSize a.Namespace a.PodName (String.mk ds) hns hnsd hpod hpodc
    hds hdig]
  have hmin : min (decimalValue ds) (2 ^ (intSize - 1) - 1) = a.Port.toNat := by
    rw [hval]; omega
  show Except.ok _ = Except.ok a
  rw [hmin, Int.toNat_of_nonneg hlo]

/-- The round trip of C1 at the address `default.redis-0:6379`, on a 64-bit `int`. -/
theorem ParseAddr_String_roundtrip_witness :
    ParseAddr 64 (Addr.String ⟨"default", "redis-0", 6379⟩)
      = Except.ok ⟨"default", "redis-0", 6379⟩ :=
  ParseAddr_String_roundtrip 64 ⟨"default", "redis-0", 6379⟩ (by decide) (by decide)
    (by decide) (by decide) (by decide) (by decide) (by decide) (by decide) (by decide)

/-- C2: ParseAddr returns an error if and only if the text is not of the form
`scope.target:digits` with a non-empty scope without `.`, a non-empty target without `:`
and a non-empty run of ASCII decimal digits; `nohost` and `a.b:-1` are rejected. -/
theorem ParseAddr_error_iff (intSize : Nat) (s : String) :
    ((∃ e, ParseAddr intSize s = Except.error e) ↔
      ¬ ∃ scope target digits : String,
          s = scope ++ "." ++ target ++ ":" ++ digits ∧
          scope ≠ "" ∧ '.' ∉ scope.data ∧ target ≠ "" ∧ ':' ∉ target.data ∧
          digits ≠ "" ∧ ∀ c ∈ digits.data, c.isDigit = true) ∧
    ParseAddr intSize "nohost" = Except.error (DialError.mustMatchFormat "nohost") ∧
    ParseAddr intSize "a.b:-1" = Except.error (DialError.mustMatchFormat "a.b:-1") := by
  refine ⟨⟨?_, ?_⟩, ?_, ?_⟩
  · rintro ⟨e, he⟩ ⟨scope, target, digits, rfl, hs, hsd, ht, htc, hd, hdd⟩
    rw [ParseAddr_of_form intSize scope target digits hs hsd ht htc hd hdd] at he
    cases he
  · intro hno
    cases hm : matchItems addrRegex s.data with
    | none => exact ⟨_, ParseAddr_error_of_no_match intSize s hm⟩
    | some gs =>
      exfalso
      apply hno
      obtain ⟨scope, target, digits, hform, hs, hsd, ht, htc, hd, hdd, _⟩ :=
        form_of_matchItems_addrRegex s.data gs hm
      refine ⟨String.mk scope, String.mk target, String.mk digits, ?_, ?_, hsd, ?_, htc, ?_, hdd⟩
      · apply String.ext
        rw [form_data]
        exact hform
      · intro h; exact hs (by simpa using congrArg String.data h)
      · intro h; exact ht (by simpa using congrArg String.data h)
      · intro h; exact hd (by simpa using congrArg String.data h)
  · exact ParseAddr_error_of_no_match intSize "nohost" (by rfl)
  · exact ParseAddr_error_of_no_match intSize "a.b:-1" (by rfl)

/-- C3: for a non-empty scope without `.`, a non-empty target without `:` and a non-empty
run of decimal digits whose value fits in the `int` range, ParseAddr of
`scope.target:digits` returns exactly the scope, the target and the value of the digits. -/
theorem ParseAddr_form_value (intSize : Nat) (scope target d : String)
    (hs : scope ≠ "") (hsd : '.' ∉ scope.data) (ht : target ≠ "") (htc : ':' ∉ target.data)
    (hd : d ≠ "") (hdd : ∀ c ∈ d.data, c.isDigit = true)
    (hfit : decimalValue d.data ≤ 2 ^ (intSize - 1) - 1) :
    ParseAddr intSize (scope ++ "." ++ target ++ ":" ++ d)
      = Except.ok { Namespace := scope, PodName := target, Port := (decimalValue d.data : Int) } := by
  rw [ParseAddr_of_form intSize scope target d hs hsd ht htc hd hdd, Nat.min_eq_left hfit]

/-- The example of C3: `default.redis-0:6379` parses to `default`, `redis-0` and 6379. -/
theorem ParseAddr_form_value_witness :
    ParseAddr 64 "default.redis-0:6379" = Except.ok ⟨"default", "redis-0", 6379⟩ :=
  ParseAddr_form_value 64 "default" "redis-0" "6379" (by decide) (by decide) (by decide)
    (by decide) (by decide) (by decide) (by decide)

/-! ## The dialer -/

/-- C5: when the upgrade succeeded (with connection `c`) and DialContainerPort returns an
error, it returns no connection and `Close` is called on `c` exactly once, as the last call
before returning, and on no other connection; when DialContainerPort succeeds it calls
`Close` on no connection. -/
theorem DialContainerPort_close_on_error (env : Env) (history : List Event) (d : Dialer)
    (ctx : Context) (logger : Logger) (addr : Addr) (c : Nat)
    (hrt : env.RoundTripperFor history (withDefaults d.restConfig) = none)
    (hdial : env.Dial (history ++ [Event.RoundTripperFor (withDefaults d.restConfig)])
      (portForwardRequest d.client addr) portforward.PortForwardProtocolV1Name = Except.ok c) :
    ((d.DialContainerPort env history ctx logger addr).finalErr ≠ none →
      (d.DialContainerPort env history ctx logger addr).conn = none ∧
      (d.DialContainerPort env history ctx logger addr).events.count (Event.ConnClose c) = 1 ∧
      (d.DialContainerPort env history ctx logger addr).events.getLast? = some (Event.ConnClose c) ∧
      ∀ c1, Event.ConnClose c1 ∈ (d.DialContainerPort env history ctx logger addr).events → c1 = c) ∧
    ((d.DialContainerPort env history ctx logger addr).finalErr = none →
      ∀ c1, Event.ConnClose c1 ∉ (d.DialContainerPort env history ctx logger addr).events) := by
  simp only [Dialer.DialContainerPort, hrt, hdial]
  split
  · simp [closeOnError, List.count_cons]
  · split
    · simp [closeOnError, List.count_cons]
    · simp [closeOnError]

/-- The data stream fails to open on the mock transport: the connection is closed once. -/
theorem DialContainerPort_close_on_error_witness :
    (mockDialer.DialContainerPort (mockEnv none none none (some "boom")) [] liveContext
        ⟨"log"⟩ redisAddr).finalErr = some (DialError.creatingDataStream "boom") ∧
    (mockDialer.DialContainerPort (mockEnv none none none (some "boom")) [] liveContext
        ⟨"log"⟩ redisAddr).events.count (Event.ConnClose 0) = 1 :=
  ⟨by rfl,
   ((DialContainerPort_close_on_error (mockEnv none none none (some "boom")) [] mockDialer
      liveContext ⟨"log"⟩ redisAddr 0 (by rfl) (by rfl)).1 (by decide)).2.1⟩

/-- C4, on the mock transport: the connection returned for `default.redis-0:6379` reports
the zero address as its remote address, not the address that was dialled. -/
theorem DialContainerPort_RemoteAddr_unset :
    (mockDialer.DialContainerPort (mockEnv none none none none) [] liveContext ⟨"log"⟩
        redisAddr).finalErr = none ∧
    (mockDialer.DialContainerPort (mockEnv none none none none) [] liveContext ⟨"log"⟩
        redisAddr).conn.map stream.RemoteAddr = some { Namespace := "", PodName := "", Port := 0 } ∧
    (mockDialer.DialContainerPort (mockEnv none none none none) [] liveContext ⟨"log"⟩
        redisAddr).conn.map stream.RemoteAddr ≠ some redisAddr := by
  refine ⟨by rfl, by rfl, by decide⟩

/-- C6, refuted: with a context that is already cancelled, DialContainerPort on the mock
transport goes through the upgrade and returns a connection and no error. -/
theorem DialContainerPort_cancelled_context_connects :
    cancelledContext.Err ≠ none ∧
    (mockDialer.DialContainerPort (mockEnv none none none none) [] cancelledContext ⟨"log"⟩
        redisAddr).finalErr = none ∧
    (mockDialer.DialContainerPort (mockEnv none none none none) [] cancelledContext ⟨"log"⟩
        redisAddr).conn = some { addr := Addr.zero, Stream := 1, streamConn := 0 } := by
  refine ⟨by decide, by rfl, by rfl⟩

/-- C6, amended: DialContainerPort does not consult its context: with the same collaborators
it returns the same results and makes the same calls whatever the state of the context. -/
theorem DialContainerPort_ignores_context (env : Env) (history : List Event) (d : Dialer)
    (ctx1 ctx2 : Context) (logger : Logger) (addr : Addr) :
    d.DialContainerPort env history ctx1 logger addr
      = d.DialContainerPort env history ctx2 logger addr := rfl

/-- C7: when the upgrade fails, in `spdy.RoundTripperFor` or in the dialer's `Dial`,
DialContainerPort returns no connection and an error carrying the cause, and `CreateStream`
is not called. -/
theorem DialContainerPort_upgrade_failed (env : Env) (history : List Event) (d : Dialer)
    (ctx : Context) (logger : Logger) (addr : Addr) (cause : String) :
    (env.RoundTripperFor history (withDefaults d.restConfig) = some cause →
      (d.DialContainerPort env history ctx logger addr).conn = none ∧
      (d.DialContainerPort env history ctx logger addr).finalErr
        = some (DialError.createRoundTripper cause) ∧
      ∀ c h, Event.CreateStream c h ∉ (d.DialContainerPort env history ctx logger addr).events) ∧
    (env.RoundTripperFor history (withDefaults d.restConfig) = none →
      env.Dial (history ++ [Event.RoundTripperFor (withDefaults d.restConfig)])
        (portForwardRequest d.client addr) portforward.PortForwardProtocolV1Name
        = Except.error cause →
      (d.DialContainerPort env history ctx logger addr).conn = none ∧
      (d.DialContainerPort env history ctx logger addr).finalErr
        = some (DialError.dialerFailed cause) ∧
      ∀ c h, Event.CreateStream c h ∉ (d.DialContainerPort env history ctx logger addr).events) := by
  constructor
  · intro hrt
    simp [Dialer.DialContainerPort, hrt]
  · intro hrt hdial
    simp [Dialer.DialContainerPort, hrt, hdial]

/-- The upgrade fails on the mock transport: the error carries the cause and no stream is
requested. -/
theorem DialContainerPort_upgrade_failed_witness :
    (mockDialer.DialContainerPort (mockEnv none (some "boom") none none) [] liveContext
        ⟨"log"⟩ redisAddr).conn = none ∧
    (mockDialer.DialContainerPort (mockEnv none (some "boom") none none) [] liveContext
        ⟨"log"⟩ redisAddr).finalErr = some (DialError.dialerFailed "boom") ∧
    ∀ c h, Event.CreateStream c h ∉
      (mockDialer.DialContainerPort (mockEnv none (some "boom") none none) [] liveContext
        ⟨"log"⟩ redisAddr).events :=
  (DialContainerPort_upgrade_failed (mockEnv none (some "boom") none none) [] mockDialer
    liveContext ⟨"log"⟩ redisAddr "boom").2 (by rfl) (by rfl)

/-- C8: when the upgrade and both `CreateStream` calls succeed, DialContainerPort calls
`CreateStream` exactly twice on the new connection, first with the headers of the error
stream and then with those of the data stream; both carry the request id `1` and the decimal
rendering of the port of the address. -/
theorem DialContainerPort_stream_requests (env : Env) (history : List Event) (d : Dialer)
    (ctx : Context) (logger : Logger) (addr : Addr) (c e s : Nat)
    (hrt : env.RoundTripperFor history (withDefaults d.restConfig) = none)
    (hdial : env.Dial (history ++ [Event.RoundTripperFor (withDefaults d.restConfig)])
      (portForwardRequest d.client addr) portforward.PortForwardProtocolV1Name = Except.ok c)
    (herr : env.CreateStream
      (history ++ [Event.RoundTripperFor (withDefaults d.restConfig),
        Event.Dial (portForwardRequest d.client addr) portforward.PortForwardProtocolV1Name])
      c (errorStreamHeaders addr) = Except.ok e)
    (hdata : env.CreateStream
      (history ++ [Event.RoundTripperFor (withDefaults d.restConfig),
        Event.Dial (portForwardRequest d.client addr) portforward.PortForwardProtocolV1Name,
        Event.CreateStream c (errorStreamHeaders addr), Event.StreamClose e])
      c (dataStreamHeaders addr) = Except.ok s) :
    (d.DialContainerPort env history ctx logger addr).finalErr = none ∧
    (d.DialContainerPort env history ctx logger addr).events
      = [Event.RoundTripperFor (withDefaults d.restConfig),
         Event.Dial (portForwardRequest d.client addr) portforward.PortForwardProtocolV1Name,
         Event.CreateStream c (errorStreamHeaders addr), Event.StreamClose e,
         Event.CreateStream c (dataStreamHeaders addr)] ∧
    createStreamCount (d.DialContainerPort env history ctx logger addr).events = 2 ∧
    (errorStreamHeaders addr).Get v1.StreamType = v1.StreamTypeError ∧
    (dataStreamHeaders addr).Get v1.StreamType = v1.StreamTypeData ∧
    (errorStreamHeaders addr).Get v1.PortForwardRequestIDHeader = "1" ∧
    (dataStreamHeaders addr).Get v1.PortForwardRequestIDHeader = "1" ∧
    (errorStreamHeaders addr).Get v1.PortHeader = formatInt addr.Port ∧
    (dataStreamHeaders addr).Get v1.PortHeader = formatInt addr.Port := by
  have hev : (d.DialContainerPort env history ctx logger addr).finalErr = none ∧
      (d.DialContainerPort env history ctx logger addr).events
        = [Event.RoundTripperFor (withDefaults d.restConfig),
           Event.Dial (portForwardRequest d.client addr) portforward.PortForwardProtocolV1Name,
           Event.CreateStream c (errorStreamHeaders addr), Event.StreamClose e,
           Event.CreateStream c (dataStreamHeaders addr)] := by
    simp only [dataStreamHeaders, errorStreamHeaders] at herr hdata ⊢
    simp [Dialer.DialContainerPort, hrt, hdial, herr, hdata, closeOnError]
  refine ⟨hev.1, hev.2, ?_, ?_, ?_, ?_, ?_, ?_, ?_⟩
  · rw [hev.2]; rfl
  all_goals
    simp [dataStreamHeaders, errorStreamHeaders, Header.Set, Header.Get, Header.empty,
      v1.StreamType, v1.StreamTypeError, v1.StreamTypeData, v1.PortHeader,
      v1.PortForwardRequestIDHeader]

/-- Both streams open on the mock transport: two requests, the error stream first. -/
theorem DialContainerPort_stream_requests_witness :
    (mockDialer.DialContainerPort (mockEnv none none none none) [] liveContext ⟨"log"⟩
        redisAddr).events
      = [Event.RoundTripperFor (withDefaults mockDialer.restConfig),
         Event.Dial (portForwardRequest mockDialer.client redisAddr)
           portforward.PortForwardProtocolV1Name,
         Event.CreateStream 0 ⟨[("streamType", "error"), ("port", "6379"), ("requestID", "1")]⟩,
         Event.StreamClose 0,
         Event.CreateStream 0 ⟨[("streamType", "data"), ("port", "6379"), ("requestID", "1")]⟩] :=
  (DialContainerPort_stream_requests (mockEnv none none none none) [] mockDialer liveContext
    ⟨"log"⟩ redisAddr 0 0 1 (by rfl) (by rfl) (by rfl) (by rfl)).2.1

/-! ## The connection adapter -/

/-- C9: stream.Close returns `nil` whatever the collaborators answer to the two closes, so a
first and a second call both succeed; and the second call leaves every stream and every
connection in the closed or open state the first call left it in. -/
theorem stream_Close_twice (env : Env) (history : List Event) (s : stream) :
    (stream.Close env history s).1 = none ∧
    (stream.Close env (history ++ (stream.Close env history s).2) s).1 = none ∧
    ∀ id,
      streamClosed (history ++ (stream.Close env history s).2
          ++ (stream.Close env (history ++ (stream.Close env history s).2) s).2) id
        = streamClosed (history ++ (stream.Close env history s).2) id ∧
      connClosed (history ++ (stream.Close env history s).2
          ++ (stream.Close env (history ++ (stream.Close env history s).2) s).2) id
        = connClosed (history ++ (stream.Close env history s).2) id := by
  refine ⟨rfl, rfl, ?_⟩
  intro id
  simp only [stream.Close, streamClosed, connClosed, decide_eq_decide, List.mem_append,
    List.mem_cons]
  constructor <;> tauto

/-- C10: stream.Close calls `Close` on the data stream and then on the connection, whatever
the collaborators answer, so that afterwards both have been closed. -/
theorem stream_Close_closes_both (env : Env) (history : List Event) (s : stream) :
    (stream.Close env history s).2 = [Event.StreamClose s.Stream, Event.ConnClose s.streamConn] ∧
    streamClosed (history ++ (stream.Close env history s).2) s.Stream = true ∧
    connClosed (history ++ (stream.Close env history s).2) s.streamConn = true := by
  simp [stream.Close, streamClosed, connClosed]

/-! ## The error monitor -/

/-- C11: when the error stream is read to its end without error, the monitor logs exactly
one entry of error severity carrying the content when the content is not empty (`boom`, for
one) and nothing when it is empty; when the read fails it logs exactly one entry of error
severity; and the goroutine of one dial never logs more than one entry. -/
theorem errorStreamMonitor_entries (logger : Logger) (m err : String) :
    (m ≠ "" → errorStreamMonitor logger (m, none)
      = [{ severity := Severity.error, err := m,
           msg := "an error occurred connecting to the remote port" }]) ∧
    errorStreamMonitor logger ("boom", none)
      = [{ severity := Severity.error, err := "boom",
           msg := "an error occurred connecting to the remote port" }] ∧
    errorStreamMonitor logger ("", none) = [] ∧
    errorStreamMonitor logger (m, some err)
      = [{ severity := Severity.error, err := err, msg := "error reading from error stream" }] ∧
    (∀ read, (errorStreamMonitor logger read).length ≤ 1) ∧
    (∀ (env : Env) (history : List Event) (r : DialResult),
      (r.monitorLog env history).length ≤ 1) := by
  have hone : ∀ (l : Logger) (read : String × Option String),
      (errorStreamMonitor l read).length ≤ 1 := by
    intro l read
    unfold errorStreamMonitor
    split
    · simp
    · split <;> simp
  refine ⟨?_, by rfl, by rfl, by rfl, hone logger, ?_⟩
  · intro hm
    have hlen : m.length > 0 := by
      have hd := data_ne_nil m hm
      rw [String.length]
      exact List.length_pos.mpr hd
    simp [errorStreamMonitor, hlen, Logger.Error]
  · intro env history r
    unfold DialResult.monitorLog
    split
    · simp
    · exact hone _ _

/-- The error stream of the mock transport yields `boom`: the goroutine of the dial logs one
entry that carries it. -/
theorem errorStreamMonitor_entries_witness :
    (mockDialer.DialContainerPort (mockEnvReading ("boom", none)) [] liveContext ⟨"log"⟩
        redisAddr).monitorLog (mockEnvReading ("boom", none)) []
      = [{ severity := Severity.error, err := "boom",
           msg := "an error occurred connecting to the remote port" }] :=
  (errorStreamMonitor_entries ⟨"log"⟩ "boom" "").1 (by decide)

/-! ## What ParseAddr accepts -/

/-- Every text that ParseAddr accepts has the form `scope.target:digits`, and the address
returned holds the scope, the target and the value of the digits saturated at the largest
`int`. -/
theorem ParseAddr_ok_form (intSize : Nat) (s : String) (a : Addr)
    (h : ParseAddr intSize s = Except.ok a) :
    ∃ scope target digits : String,
      s = scope ++ "." ++ target ++ ":" ++ digits ∧
      scope ≠ "" ∧ '.' ∉ scope.data ∧ target ≠ "" ∧ ':' ∉ target.data ∧
      digits ≠ "" ∧ (∀ c ∈ digits.data, c.isDigit = true) ∧
      a = { Namespace := scope, PodName := target,
            Port := ((min (decimalValue digits.data) (2 ^ (intSize - 1) - 1) : Nat) : Int) } := by
  cases hm : matchItems addrRegex s.data with
  | none =>
    rw [ParseAddr_error_of_no_match intSize s hm] at h
    cases h
  | some gs =>
    obtain ⟨scope, target, digits, hform, hs, hsd, ht, htc, hd, hdd, _⟩ :=
      form_of_matchItems_addrRegex s.data gs hm
    have hs1 : String.mk scope ≠ "" := fun h => hs (by simpa using congrArg String.data h)
    have ht1 : String.mk target ≠ "" := fun h => ht (by simpa using congrArg String.data h)
    have hd1 : String.mk digits ≠ "" := fun h => hd (by simpa using congrArg String.data h)
    have hseq : s = String.mk scope ++ "." ++ String.mk target ++ ":" ++ String.mk digits := by
      apply String.ext
      rw [form_data]
      exact hform
    refine ⟨String.mk scope, String.mk target, String.mk digits, hseq, hs1, hsd, ht1, htc,
      hd1, hdd, ?_⟩
    have hp := ParseAddr_of_form intSize (String.mk scope) (String.mk target)
      (String.mk digits) hs1 hsd ht1 htc hd1 hdd
    rw [← hseq, h] at hp
    exact Except.ok.inj hp

/-- C12, refuted: ParseAddr accepts `a:b.c.d:80`, and the namespace it returns contains a
`:` and the pod name a `.`. -/
theorem ParseAddr_names_keep_delimiters :
    ParseAddr 64 "a:b.c.d:80" = Except.ok { Namespace := "a:b", PodName := "c.d", Port := 80 } ∧
    ':' ∈ "a:b".data ∧ '.' ∈ "c.d".data := by
  refine ⟨by rfl, by decide, by decide⟩

/-- C12, amended: for every text that ParseAddr accepts, the namespace of the result is not
empty and contains no `.`, and the pod name is not empty and contains no `:`. -/
theorem ParseAddr_names (intSize : Nat) (s : String) (a : Addr)
    (h : ParseAddr intSize s = Except.ok a) :
    a.Namespace ≠ "" ∧ '.' ∉ a.Namespace.data ∧ a.PodName ≠ "" ∧ ':' ∉ a.PodName.data := by
  obtain ⟨scope, target, digits, _, hs, hsd, ht, htc, _, _, rfl⟩ := ParseAddr_ok_form intSize s a h
  exact ⟨hs, hsd, ht, htc⟩

/-- The names returned for `a:b.c.d:80`. -/
theorem ParseAddr_names_witness :
    ("a:b" : String) ≠ "" ∧ '.' ∉ "a:b".data ∧ ("c.d" : String) ≠ "" ∧ ':' ∉ "c.d".data :=
  ParseAddr_names 64 "a:b.c.d:80" { Namespace := "a:b", PodName := "c.d", Port := 80 } (by rfl)

/-- C14: for every text that ParseAddr accepts, the port of the result is not negative and
not above the largest `int`, whatever number the digits denote. -/
theorem ParseAddr_port_range (intSize : Nat) (s : String) (a : Addr)
    (h : ParseAddr intSize s = Except.ok a) :
    0 ≤ a.Port ∧ a.Port ≤ ((2 ^ (intSize - 1) - 1 : Nat) : Int) := by
  obtain ⟨scope, target, digits, _, _, _, _, _, _, _, rfl⟩ := ParseAddr_ok_form intSize s a h
  constructor
  · exact Int.ofNat_nonneg _
  · exact Int.ofNat_le.mpr (Nat.min_le_right _ _)

/-- Twenty nines do not fit in a 64-bit `int`: the port is the largest `int`. -/
theorem ParseAddr_port_range_witness :
    (0 : Int) ≤ 9223372036854775807 ∧
    (9223372036854775807 : Int) ≤ ((2 ^ (64 - 1) - 1 : Nat) : Int) :=
  ParseAddr_port_range 64 "a.b:99999999999999999999"
    { Namespace := "a", PodName := "b", Port := 9223372036854775807 } (by rfl)

/-! ## The dial hook -/

/-- C15: when the address given to the `DialContext` hook does not parse, the hook returns
no connection and the error of ParseAddr, no call is made on the transport (neither the
upgrade nor any other) and no goroutine is started. -/
theorem DialContext_invalid_address (intSize : Nat) (env : Env) (history : List Event)
    (logger : Logger) (client : Client) (restConfig : RestConfig) (ctx : Context)
    (addr : String) (e : DialError) (h : ParseAddr intSize addr = Except.error e) :
    (NewTransport.DialContext intSize env history logger client restConfig ctx addr).conn
      = none ∧
    (NewTransport.DialContext intSize env history logger client restConfig ctx addr).finalErr
      = some (DialError.mustMatchFormat addr) ∧
    e = DialError.mustMatchFormat addr ∧
    (NewTransport.DialContext intSize env history logger client restConfig ctx addr).events
      = [] ∧
    (NewTransport.DialContext intSize env history logger client restConfig ctx addr).monitor
      = none ∧
    (NewTransport.DialContext intSize env history logger client restConfig ctx addr).dialer
      = NewDialer client restConfig := by
  have he : e = DialError.mustMatchFormat addr := by
    cases hm : matchItems addrRegex addr.data with
    | none =>
      rw [ParseAddr_error_of_no_match intSize addr hm] at h
      exact (Except.error.inj h).symm
    | some gs =>
      obtain ⟨a, ha⟩ := ParseAddr_ok_of_match intSize addr gs hm
      rw [ha] at h
      cases h
  subst he
  simp [NewTransport.DialContext, h]

/-- The hook on `nohost`, with the mock transport. -/
theorem DialContext_invalid_address_witness :
    (NewTransport.DialContext 64 (mockEnv none none none none) [] ⟨"log"⟩ mockDialer.client
        mockDialer.restConfig liveContext "nohost").finalErr
      = some (DialError.mustMatchFormat "nohost") ∧
    (NewTransport.DialContext 64 (mockEnv none none none none) [] ⟨"log"⟩ mockDialer.client
        mockDialer.restConfig liveContext "nohost").events = [] :=
  ⟨(DialContext_invalid_address 64 (mockEnv none none none none) [] ⟨"log"⟩ mockDialer.client
      mockDialer.restConfig liveContext "nohost" _ (by rfl)).2.1,
   (DialContext_invalid_address 64 (mockEnv none none none none) [] ⟨"log"⟩ mockDialer.client
      mockDialer.restConfig liveContext "nohost" _ (by rfl)).2.2.2.1⟩

/-! ## The configuration shared by the dialers -/

theorem closeOnError_dialer (c : Nat) (r : DialResult) : (closeOnError c r).dialer = r.dialer := by
  unfold closeOnError
  split <;> rfl

/-- The receiver after a call of DialContainerPort: the client as before, the configuration
with its two defaults filled in. -/
theorem DialContainerPort_dialer (env : Env) (history : List Event) (d : Dialer)
    (ctx : Context) (logger : Logger) (addr : Addr) :
    (d.DialContainerPort env history ctx logger addr).dialer
      = { client := d.client, restConfig := withDefaults d.restConfig } := by
  simp only [Dialer.DialContainerPort]
  split
  · rfl
  · split
    · rfl
    · rw [closeOnError_dialer]
      split
      · rfl
      · split <;> rfl

/-- C18, refuted: a dial with a configuration whose GroupVersion and NegotiatedSerializer
are `nil` leaves the configuration changed. -/
theorem DialContainerPort_writes_config :
    mockDialer.restConfig.GroupVersion = none ∧
    (mockDialer.DialContainerPort (mockEnv none none none none) [] liveContext ⟨"log"⟩
        redisAddr).dialer.restConfig.GroupVersion = some { Group := "", Version := "" } ∧
    (mockDialer.DialContainerPort (mockEnv none none none none) [] liveContext ⟨"log"⟩
        redisAddr).dialer ≠ mockDialer := by
  refine ⟨by rfl, by rfl, by decide⟩

/-- C18, amended: DialContainerPort leaves the client of the dialer unchanged and writes to
the configuration only to fill in a GroupVersion and a NegotiatedSerializer that are `nil`:
the host is kept, a field that is set is kept, a configuration with both fields set is left
unchanged, and a second dial leaves the configuration as the first one left it. -/
theorem DialContainerPort_config (env : Env) (history : List Event) (d : Dialer)
    (ctx : Context) (logger : Logger) (addr : Addr) :
    (d.DialContainerPort env history ctx logger addr).dialer.client = d.client ∧
    (d.DialContainerPort env history ctx logger addr).dialer.restConfig.Host
      = d.restConfig.Host ∧
    (d.restConfig.GroupVersion ≠ none →
      (d.DialContainerPort env history ctx logger addr).dialer.restConfig.GroupVersion
        = d.restConfig.GroupVersion) ∧
    (d.restConfig.NegotiatedSerializer ≠ none →
      (d.DialContainerPort env history ctx logger addr).dialer.restConfig.NegotiatedSerializer
        = d.restConfig.NegotiatedSerializer) ∧
    (d.restConfig.GroupVersion ≠ none → d.restConfig.NegotiatedSerializer ≠ none →
      (d.DialContainerPort env history ctx logger addr).dialer = d) ∧
    (∀ (env2 : Env) (history2 : List Event) (ctx2 : Context) (logger2 : Logger) (addr2 : Addr),
      ((d.DialContainerPort env history ctx logger addr).dialer.DialContainerPort
          env2 history2 ctx2 logger2 addr2).dialer
        = (d.DialContainerPort env history ctx logger addr).dialer) := by
  obtain ⟨client, host, gv, ns⟩ := d
  simp only [DialContainerPort_dialer]
  cases gv <;> cases ns <;> simp [withDefaults]

/-- A dialer whose configuration has both fields set comes out of a dial unchanged. -/
theorem DialContainerPort_config_witness :
    ((NewDialer ⟨"client"⟩ ⟨"apiserver", some {}, some NegotiatedSerializer.Codecs⟩).DialContainerPort
        (mockEnv none none none none) [] liveContext ⟨"log"⟩ redisAddr).dialer
      = NewDialer ⟨"client"⟩ ⟨"apiserver", some {}, some NegotiatedSerializer.Codecs⟩ :=
  (DialContainerPort_config (mockEnv none none none none) []
    (NewDialer ⟨"client"⟩ ⟨"apiserver", some {}, some NegotiatedSerializer.Codecs⟩)
    liveContext ⟨"log"⟩ redisAddr).2.2.2.2.1 (by decide) (by decide)

/-! ## Serializing what was parsed -/

theorem digit_range (c : Char) (hc : c.isDigit = true) : 48 ≤ c.toNat ∧ c.toNat ≤ 57 := by
  simp only [Char.isDigit, Bool.and_eq_true, decide_eq_true_eq] at hc
  have h1 : (48 : UInt32).toNat ≤ c.val.toNat := hc.1
  have h2 : c.val.toNat ≤ (57 : UInt32).toNat := hc.2
  exact ⟨h1, h2⟩

theorem digitChar_of_digit (c : Char) (hc : c.isDigit = true) :
    Nat.digitChar (c.toNat - '0'.toNat) = c := by
  obtain ⟨h1, h2⟩ := digit_range c hc
  have hc2 : c = Char.ofNat c.toNat := (Char.ofNat_toNat c).symm
  have h0 : '0'.toNat = 48 := rfl
  rw [h0]
  generalize c.toNat = n at *
  subst hc2
  interval_cases n <;> rfl

/-- With enough fuel, what `Nat.toDigitsCore` writes depends neither on the fuel nor on
what was written before. -/
theorem toDigitsCore_eq_toDigits (n : Nat) :
    ∀ (fuel : Nat) (acc : List Char), n < fuel →
      Nat.toDigitsCore 10 fuel n acc = Nat.toDigits 10 n ++ acc := by
  induction n using Nat.strong_induction_on with
  | _ n ih =>
    intro fuel acc hfuel
    obtain ⟨f, rfl⟩ : ∃ f, fuel = f + 1 := ⟨fuel - 1, by omega⟩
    by_cases hq : n / 10 = 0
    · simp [Nat.toDigits, Nat.toDigitsCore, hq]
    · have hlt : n / 10 < n := by omega
      have h1 := ih (n / 10) hlt f (Nat.digitChar (n % 10) :: acc) (by omega)
      have h2 := ih (n / 10) hlt n [Nat.digitChar (n % 10)] hlt
      simp only [Nat.toDigits, Nat.toDigitsCore, hq, if_false] at h1 h2 ⊢
      rw [h1, h2]
      simp

theorem toDigits_small (n : Nat) (hq : n / 10 = 0) :
    Nat.toDigits 10 n = [Nat.digitChar (n % 10)] := by
  simp [Nat.toDigits, Nat.toDigitsCore, hq]

theorem toDigits_large (n : Nat) (hq : n / 10 ≠ 0) :
    Nat.toDigits 10 n = Nat.toDigits 10 (n / 10) ++ [Nat.digitChar (n % 10)] := by
  have h := toDigitsCore_eq_toDigits (n / 10) n [Nat.digitChar (n % 10)] (by omega)
  rw [← h]
  simp [Nat.toDigits, Nat.toDigitsCore, hq]

theorem decimalValue_concat (ds : List Char) (c : Char) :
    decimalValue (ds ++ [c]) = 10 * decimalValue ds + (c.toNat - '0'.toNat) := by
  simp [decimalValue, List.foldl_append]

/-- A run of digits that does not start with `0` denotes a positive number. -/
theorem decimalValue_pos (ds : List Char) (hne : ds ≠ [])
    (hdig : ∀ c ∈ ds, c.isDigit = true) (hz : ds.head? ≠ some '0') : 0 < decimalValue ds := by
  cases ds with
  | nil => exact absurd rfl hne
  | cons c b =>
    have hc := hdig c (List.mem_cons_self _ _)
    obtain ⟨h1, _⟩ := digit_range c hc
    have hne0 : c.toNat ≠ 48 := by
      intro h48
      apply hz
      have : c = '0' := by
        rw [← Char.ofNat_toNat c, h48]
      simp [this]
    have h0 : '0'.toNat = 48 := rfl
    rw [decimalValue_cons, h0]
    have hp : 0 < 10 ^ b.length := Nat.pow_pos (by decide)
    have : 1 * 10 ^ b.length ≤ (c.toNat - 48) * 10 ^ b.length :=
      Nat.mul_le_mul_right _ (by omega)
    omega

/-- Writing the value of a decimal numeral without superfluous leading zeros gives the
numeral back. -/
theorem toDigits_decimalValue (ds : List Char) :
    ds ≠ [] → (∀ c ∈ ds, c.isDigit = true) → (ds = ['0'] ∨ ds.head? ≠ some '0') →
      Nat.toDigits 10 (decimalValue ds) = ds := by
  induction ds using List.reverseRecOn with
  | nil => intro h; exact absurd rfl h
  | append_singleton l c ih =>
    intro _ hdig hz
    have hc : c.isDigit = true := hdig c (by simp)
    obtain ⟨h1, h2⟩ := digit_range c hc
    have h0 : '0'.toNat = 48 := rfl
    have hdc := digitChar_of_digit c hc
    rw [h0] at hdc
    rw [decimalValue_concat, h0]
    by_cases hl : l = []
    · subst hl
      have hv : decimalValue [] = 0 := rfl
      rw [hv, toDigits_small _ (by omega)]
      have : (10 * 0 + (c.toNat - 48)) % 10 = c.toNat - 48 := by omega
      rw [this, hdc]
      rfl
    · have hdl : ∀ x ∈ l, x.isDigit = true := fun x hx => hdig x (by simp [hx])
      have hhead : l.head? ≠ some '0' := by
        rcases hz with hz | hz
        · exfalso
          have := congrArg List.length hz
          have hlen : 0 < l.length := List.length_pos.mpr hl
          simp only [List.length_append, List.length_singleton] at this
          omega
        · cases l with
          | nil => exact absurd rfl hl
          | cons a l => simpa using hz
      have hpos := decimalValue_pos l hl hdl hhead
      have hl2 := ih hl hdl (Or.inr hhead)
      rw [toDigits_large _ (by omega)]
      have hdiv : (10 * decimalValue l + (c.toNat - 48)) / 10 = decimalValue l := by omega
      have hmod : (10 * decimalValue l + (c.toNat - 48)) % 10 = c.toNat - 48 := by omega
      rw [hdiv, hmod, hl2, hdc]

/-- C13, refuted: ParseAddr accepts `a.b:007`, and the address it returns serializes to
`a.b:7`. -/
theorem String_ParseAddr_leading_zeros :
    ParseAddr 64 "a.b:007" = Except.ok { Namespace := "a", PodName := "b", Port := 7 } ∧
    Addr.String { Namespace := "a", PodName := "b", Port := 7 } = "a.b:7" ∧
    ("a.b:7" : String) ≠ "a.b:007" := by
  refine ⟨by rfl, by rfl, by decide⟩

/-- C13, amended: for every text `scope.target:digits` that ParseAddr accepts and whose
digits are a decimal numeral without superfluous leading zeros, of a value that fits in the
`int` range, serializing the parsed address gives the text back. -/
theorem String_ParseAddr_canonical (intSize : Nat) (scope target digits : String)
    (hs : scope ≠ "") (hsd : '.' ∉ scope.data) (ht : target ≠ "") (htc : ':' ∉ target.data)
    (hd : digits ≠ "") (hdd : ∀ c ∈ digits.data, c.isDigit = true)
    (hcanon : digits = "0" ∨ digits.data.head? ≠ some '0')
    (hfit : decimalValue digits.data ≤ 2 ^ (intSize - 1) - 1) :
    ∃ a, ParseAddr intSize (scope ++ "." ++ target ++ ":" ++ digits) = Except.ok a ∧
      a.String = scope ++ "." ++ target ++ ":" ++ digits := by
  refine ⟨_, ParseAddr_of_form intSize scope target digits hs hsd ht htc hd hdd, ?_⟩
  have hcanon2 : digits.data = ['0'] ∨ digits.data.head? ≠ some '0' := by
    rcases hcanon with h | h
    · left; rw [h]
    · right; exact h
  have hback := toDigits_decimalValue digits.data (data_ne_nil _ hd) hdd hcanon2
  have hfmt : formatInt ((min (decimalValue digits.data) (2 ^ (intSize - 1) - 1) : Nat) : Int)
      = digits := by
    rw [Nat.min_eq_left hfit]
    have hnn : ¬ ((decimalValue digits.data : Nat) : Int) < 0 := by omega
    simp only [formatInt, hnn, if_false, Int.toNat_ofNat]
    show String.mk (Nat.toDigits 10 (decimalValue digits.data)) = digits
    rw [hback]
  simp only [Addr.String, hfmt]

/-- The text `default.redis-0:6379` comes back from parsing and serializing. -/
theorem String_ParseAddr_canonical_witness :
    ∃ a, ParseAddr 64 "default.redis-0:6379" = Except.ok a ∧
      a.String = "default.redis-0:6379" :=
  String_ParseAddr_canonical 64 "default" "redis-0" "6379" (by decide) (by decide) (by decide)
    (by decide) (by decide) (by decide) (by decide) (by decide)

end Pod

namespace Pmdmanager

/-! ## Lemmas on the map of devices -/

theorem index_cons (a : String) (v : PmemDeviceInfo) (m : DeviceMap) (key : String) :
    DeviceMap.index ((a, v) :: m) key = if a = key then some v else DeviceMap.index m key := by
  by_cases h : a = key
  · simp [DeviceMap.index, List.find?_cons, h]
  · have hb : (a == key) = false := beq_eq_false_iff_ne.mpr h
    simp [DeviceMap.index, List.find?_cons, h, hb]

theorem delete_cons (a : String) (v : PmemDeviceInfo) (m : DeviceMap) (key : String) :
    DeviceMap.delete ((a, v) :: m) key
      = if a = key then DeviceMap.delete m key else (a, v) :: DeviceMap.delete m key := by
  by_cases h : a = key
  · simp [DeviceMap.delete, List.filter_cons, h]
  · simp [DeviceMap.delete, List.filter_cons, h]

theorem index_delete_self (m : DeviceMap) (key : String) :
    DeviceMap.index (DeviceMap.delete m key) key = none := by
  induction m with
  | nil => rfl
  | cons kv m ih =>
    obtain ⟨a, v⟩ := kv
    rw [delete_cons]
    by_cases hk : a = key
    · rw [if_pos hk]; exact ih
    · rw [if_neg hk, index_cons, if_neg hk]; exact ih

theorem index_delete_other (m : DeviceMap) (key other : String) (h : other ≠ key) :
    DeviceMap.index (DeviceMap.delete m key) other = DeviceMap.index m other := by
  induction m with
  | nil => rfl
  | cons kv m ih =>
    obtain ⟨a, v⟩ := kv
    rw [delete_cons, index_cons]
    by_cases hk : a = key
    · have hne : ¬ a = other := fun h2 => h (h2.symm.trans hk)
      rw [if_pos hk, if_neg hne]; exact ih
    · rw [if_neg hk, index_cons]
      by_cases ho : a = other
      · rw [if_pos ho, if_pos ho]
      · rw [if_neg ho, if_neg ho]; exact ih

theorem delete_delete (m : DeviceMap) (key : String) :
    DeviceMap.delete (DeviceMap.delete m key) key = DeviceMap.delete m key := by
  simp [DeviceMap.delete, List.filter_filter]

theorem index_assign_self (m : DeviceMap) (key : String) (value : PmemDeviceInfo) :
    DeviceMap.index (DeviceMap.assign m key value) key = some value := by
  have h : DeviceMap.assign m key value = (key, value) :: DeviceMap.delete m key := rfl
  rw [h, index_cons, if_pos rfl]

theorem index_assign_other (m : DeviceMap) (key other : String) (value : PmemDeviceInfo)
    (h : other ≠ key) :
    DeviceMap.index (DeviceMap.assign m key value) other = DeviceMap.index m other := by
  have hne : ¬ key = other := fun h2 => h h2.symm
  have ha : DeviceMap.assign m key value = (key, value) :: DeviceMap.delete m key := rfl
  rw [ha, index_cons, if_neg hne]
  exact index_delete_other m key other h

theorem GetDevice_eq_of_index (dm1 dm2 : fakeDM) (key : String)
    (h : dm1.devices.index key = dm2.devices.index key) :
    dm1.GetDevice key = dm2.GetDevice key := by
  simp only [fakeDM.GetDevice, h]

/-! ## Creating the manager -/

/-- C16: newFake returns an error if and only if the percentage is above 100; for a
percentage of at most 100 the product does not leave the `uint64` range and newFake returns
a manager without devices whose GetCapacity reports a total of `2^40` bytes, the managed
capacity `p * 2^40 / 100`, and the same number as available and as largest volume. -/
theorem newFake_capacity (p : Nat) :
    ((∃ e, newFake p = Except.error e) ↔ p > 100) ∧
    (p ≤ 100 →
      p * totalCapacity < uint64Size ∧
      ∃ dm, newFake p = Except.ok dm ∧ dm.devices = [] ∧
        dm.GetCapacity =
          ({ Available := p * 2 ^ 40 / 100, MaxVolumeSize := p * 2 ^ 40 / 100,
             Managed := p * 2 ^ 40 / 100, Total := 2 ^ 40 }, none)) := by
  constructor
  · constructor
    · rintro ⟨e, he⟩
      by_contra hle
      simp [newFake, hle] at he
    · intro hp
      exact ⟨Error.invalidPmemPercentage p, by simp [newFake, hp]⟩
  · intro hp
    have hnot : ¬ p > 100 := by omega
    have htot : totalCapacity = 2 ^ 40 := by decide
    have hsize : uint64Size = 2 ^ 64 := rfl
    have hlt : p * 2 ^ 40 < 2 ^ 64 := by omega
    refine ⟨by rw [htot, hsize]; exact hlt,
      { capacity := p % uint64Size * totalCapacity % uint64Size / 100, devices := [] },
      by simp only [newFake, hnot, if_false], rfl, ?_⟩
    have hp64 : p % 2 ^ 64 = p := Nat.mod_eq_of_lt (by omega)
    simp only [fakeDM.GetCapacity, fakeDM.getCapacity, List.foldl_nil, htot, hsize, hp64,
      Nat.mod_eq_of_lt hlt]

/-- Half of the capacity managed: 512 GiB. -/
theorem newFake_capacity_witness :
    50 * totalCapacity < uint64Size ∧
    ∃ dm, newFake 50 = Except.ok dm ∧ dm.devices = [] ∧
      dm.GetCapacity =
        ({ Available := 50 * 2 ^ 40 / 100, MaxVolumeSize := 50 * 2 ^ 40 / 100,
           Managed := 50 * 2 ^ 40 / 100, Total := 2 ^ 40 }, none) :=
  (newFake_capacity 50).2 (by decide)

/-! ## Deleting and creating devices -/

/-- C17: DeleteDevice always returns `nil`; afterwards GetDevice of the deleted id returns
DeviceNotFound, GetDevice of every other id returns what it returned before, the capacity
is as before, and deleting the same id once more changes nothing. -/
theorem DeleteDevice_removes (dm : fakeDM) (volumeId : String) (flush : Bool) :
    (dm.DeleteDevice volumeId flush).1 = none ∧
    (dm.DeleteDevice volumeId flush).2.GetDevice volumeId = Except.error Error.DeviceNotFound ∧
    (∀ other, other ≠ volumeId →
      (dm.DeleteDevice volumeId flush).2.GetDevice other = dm.GetDevice other) ∧
    (dm.DeleteDevice volumeId flush).2.capacity = dm.capacity ∧
    (∀ flush2, (dm.DeleteDevice volumeId flush).2.DeleteDevice volumeId flush2
      = (none, (dm.DeleteDevice volumeId flush).2)) := by
  refine ⟨rfl, ?_, ?_, rfl, ?_⟩
  · simp only [fakeDM.DeleteDevice, fakeDM.GetDevice, index_delete_self]
  · intro other hne
    exact GetDevice_eq_of_index _ _ _ (index_delete_other dm.devices volumeId other hne)
  · intro flush2
    simp only [fakeDM.DeleteDevice, delete_delete]

/-- C20: CreateDevice returns `(0, DeviceExists)` when the id is registered, whatever the
size; otherwise `(0, NotEnoughSpace)` when the size is above the available capacity; in
both cases the manager is unchanged. Otherwise it returns `(size, nil)`, and afterwards
GetDevice of the id returns the device with that id, that size and the path made of the
prefix and the id, while GetDevice of every other id returns what it returned before. -/
theorem CreateDevice_cases (FakeDevicePathPrefix : String) (dm : fakeDM) (volumeId : String)
    (size : Nat) :
    ((∃ dev, dm.GetDevice volumeId = Except.ok dev) →
      dm.CreateDevice FakeDevicePathPrefix volumeId size = ((0, some Error.DeviceExists), dm)) ∧
    (dm.GetDevice volumeId = Except.error Error.DeviceNotFound →
      size > dm.getCapacity.Available →
      dm.CreateDevice FakeDevicePathPrefix volumeId size = ((0, some Error.NotEnoughSpace), dm)) ∧
    (dm.GetDevice volumeId = Except.error Error.DeviceNotFound →
      size ≤ dm.getCapacity.Available →
      (dm.CreateDevice FakeDevicePathPrefix volumeId size).1 = (size, none) ∧
      (dm.CreateDevice FakeDevicePathPrefix volumeId size).2.GetDevice volumeId
        = Except.ok { VolumeId := volumeId, Size := size,
                      Path := FakeDevicePathPrefix ++ volumeId } ∧
      (dm.CreateDevice FakeDevicePathPrefix volumeId size).2.capacity = dm.capacity ∧
      ∀ other, other ≠ volumeId →
        (dm.CreateDevice FakeDevicePathPrefix volumeId size).2.GetDevice other
          = dm.GetDevice other) := by
  have havail : dm.getCapacity.Available = dm.getCapacity.MaxVolumeSize := rfl
  refine ⟨?_, ?_, ?_⟩
  · rintro ⟨dev, hdev⟩
    cases hi : dm.devices.index volumeId with
    | none => simp [fakeDM.GetDevice, hi] at hdev
    | some d => simp [fakeDM.CreateDevice, hi]
  · intro hnot hsize
    cases hi : dm.devices.index volumeId with
    | some d => simp [fakeDM.GetDevice, hi] at hnot
    | none =>
      rw [havail] at hsize
      simp [fakeDM.CreateDevice, hi, hsize]
  · intro hnot hsize
    cases hi : dm.devices.index volumeId with
    | some d => simp [fakeDM.GetDevice, hi] at hnot
    | none =>
      rw [havail] at hsize
      have hng : ¬ size > dm.getCapacity.MaxVolumeSize := by omega
      have hc : dm.CreateDevice FakeDevicePathPrefix volumeId size
          = ((size, none),
              { dm with
                devices := dm.devices.assign volumeId
                  { VolumeId := volumeId, Size := size,
                    Path := FakeDevicePathPrefix ++ volumeId } }) := by
        simp only [fakeDM.CreateDevice, hi, hng, if_false]
      rw [hc]
      refine ⟨rfl, ?_, rfl, ?_⟩
      · simp only [fakeDM.GetDevice, index_assign_self]
      · intro other hne
        exact GetDevice_eq_of_index _ _ _ (index_assign_other dm.devices volumeId other _ hne)

/-- Deleting `a` from the manager with the devices `a` and `b` leaves `b` as it was. -/
theorem DeleteDevice_removes_witness :
    (twoDevices.DeleteDevice "a" false).2.GetDevice "b" = twoDevices.GetDevice "b" :=
  (DeleteDevice_removes twoDevices "a" false).2.2.1 "b" (by decide)

/-- Creating a device `c` of 30 bytes in the manager with 70 bytes left. -/
theorem CreateDevice_cases_witness :
    (twoDevices.CreateDevice "/fake/" "c" 30).1 = (30, none) ∧
    (twoDevices.CreateDevice "/fake/" "c" 30).2.GetDevice "c"
      = Except.ok { VolumeId := "c", Size := 30, Path := "/fake/" ++ "c" } ∧
    (twoDevices.CreateDevice "/fake/" "c" 30).2.capacity = twoDevices.capacity ∧
    ∀ other, other ≠ "c" →
      (twoDevices.CreateDevice "/fake/" "c" 30).2.GetDevice other = twoDevices.GetDevice other :=
  (CreateDevice_cases "/fake/" twoDevices "c" 30).2.2 (by rfl) (by decide)

/-! ## The capacity invariant -/

theorem usedSize_delete_le (m : DeviceMap) (key : String) :
    ((DeviceMap.delete m key).map (fun kv => kv.2.Size)).sum
      ≤ (m.map (fun kv => kv.2.Size)).sum := by
  induction m with
  | nil => exact Nat.le_refl _
  | cons kv m ih =>
    obtain ⟨a, v⟩ := kv
    rw [delete_cons]
    by_cases hk : a = key
    · rw [if_pos hk]
      simp only [List.map_cons, List.sum_cons]
      omega
    · rw [if_neg hk]
      simp only [List.map_cons, List.sum_cons]
      omega

/-- While the sizes add up to at most the capacity, the `uint64` subtractions of
getCapacity never wrap and leave the capacity minus the sum of the sizes. -/
theorem foldl_remaining (m : DeviceMap) :
    ∀ remaining : Nat, remaining < uint64Size →
      (m.map (fun kv => kv.2.Size)).sum ≤ remaining →
      m.foldl
        (fun remaining dev => (remaining + uint64Size - dev.2.Size % uint64Size) % uint64Size)
        remaining
        = remaining - (m.map (fun kv => kv.2.Size)).sum := by
  induction m with
  | nil => intro remaining _ _; simp
  | cons kv m ih =>
    intro remaining hlt hsum
    simp only [List.map_cons, List.sum_cons] at hsum
    have hstep : (remaining + uint64Size - kv.2.Size % uint64Size) % uint64Size
        = remaining - kv.2.Size := by
      have h64 : uint64Size = 18446744073709551616 := by decide
      rw [h64] at hlt ⊢
      omega
    simp only [List.foldl_cons, List.map_cons, List.sum_cons, hstep]
    rw [ih (remaining - kv.2.Size) (by omega) (by omega)]
    omega

theorem getCapacity_of_le (dm : fakeDM) (hcap : dm.capacity < uint64Size)
    (hused : dm.usedSize ≤ dm.capacity) :
    dm.getCapacity
      = { Available := dm.capacity - dm.usedSize, MaxVolumeSize := dm.capacity - dm.usedSize,
          Managed := dm.capacity, Total := totalCapacity } := by
  simp only [fakeDM.getCapacity, foldl_remaining dm.devices dm.capacity hcap hused,
    fakeDM.usedSize]

/-- One call keeps the capacity, and keeps the sum of the sizes at most the capacity. -/
theorem step_invariant (FakeDevicePathPrefix : String) (dm : fakeDM) (call : Call)
    (hcap : dm.capacity < uint64Size) (hused : dm.usedSize ≤ dm.capacity) :
    (dm.step FakeDevicePathPrefix call).capacity = dm.capacity ∧
    (dm.step FakeDevicePathPrefix call).usedSize ≤ dm.capacity := by
  cases call with
  | DeleteDevice volumeId flush =>
    refine ⟨rfl, ?_⟩
    have := usedSize_delete_le dm.devices volumeId
    simp only [fakeDM.step, fakeDM.DeleteDevice, fakeDM.usedSize] at this hused ⊢
    omega
  | CreateDevice volumeId size =>
    simp only [fakeDM.step, fakeDM.CreateDevice]
    cases hi : dm.devices.index volumeId with
    | some d => exact ⟨by trivial, hused⟩
    | none =>
      by_cases hsize : size > dm.getCapacity.MaxVolumeSize
      · simp only [hsize, if_true]
        exact ⟨by trivial, hused⟩
      · simp only [hsize, if_false]
        refine ⟨by trivial, ?_⟩
        rw [getCapacity_of_le dm hcap hused] at hsize
        have hdel := usedSize_delete_le dm.devices volumeId
        have ha : ∀ v, DeviceMap.assign dm.devices volumeId v
            = (volumeId, v) :: DeviceMap.delete dm.devices volumeId := fun _ => rfl
        simp only [fakeDM.usedSize, ha, List.map_cons, List.sum_cons] at hused hsize ⊢
        omega

theorem run_invariant (FakeDevicePathPrefix : String) (calls : List Call) :
    ∀ dm : fakeDM, dm.capacity < uint64Size → dm.usedSize ≤ dm.capacity →
      (dm.run FakeDevicePathPrefix calls).capacity = dm.capacity ∧
      (dm.run FakeDevicePathPrefix calls).usedSize ≤ dm.capacity := by
  induction calls with
  | nil => intro dm _ hused; exact ⟨rfl, hused⟩
  | cons call calls ih =>
    intro dm hcap hused
    obtain ⟨h1, h2⟩ := step_invariant FakeDevicePathPrefix dm call hcap hused
    have := ih (dm.step FakeDevicePathPrefix call) (by rw [h1]; exact hcap) (by rw [h1]; exact h2)
    simp only [fakeDM.run, List.foldl_cons] at this ⊢
    rw [h1] at this
    exact this

/-- C19: in every state reached from `newFake p` by CreateDevice and DeleteDevice calls, the
sizes of the registered devices add up to at most the managed capacity, the managed capacity
and the total are those of the creation, and GetCapacity reports as available and as largest
volume the managed capacity minus that sum, the `uint64` subtractions never wrapping
(available plus sum is the managed capacity). -/
theorem run_capacity (FakeDevicePathPrefix : String) (p : Nat) (dm0 : fakeDM)
    (calls : List Call) (h : newFake p = Except.ok dm0) :
    (dm0.run FakeDevicePathPrefix calls).usedSize ≤ (dm0.run FakeDevicePathPrefix calls).capacity ∧
    (dm0.run FakeDevicePathPrefix calls).capacity = p * 2 ^ 40 / 100 ∧
    (dm0.run FakeDevicePathPrefix calls).GetCapacity =
      ({ Available := p * 2 ^ 40 / 100 - (dm0.run FakeDevicePathPrefix calls).usedSize,
         MaxVolumeSize := p * 2 ^ 40 / 100 - (dm0.run FakeDevicePathPrefix calls).usedSize,
         Managed := p * 2 ^ 40 / 100, Total := 2 ^ 40 }, none) ∧
    (dm0.run FakeDevicePathPrefix calls).GetCapacity.1.Available
      + (dm0.run FakeDevicePathPrefix calls).usedSize
      = (dm0.run FakeDevicePathPrefix calls).GetCapacity.1.Managed := by
  have hp : p ≤ 100 := by
    by_contra hgt
    have hgt2 : p > 100 := by omega
    simp [newFake, hgt2] at h
  have hnot : ¬ p > 100 := by omega
  have htot : totalCapacity = 2 ^ 40 := by decide
  have hsize : uint64Size = 2 ^ 64 := rfl
  have hlt : p * 2 ^ 40 < 2 ^ 64 := by omega
  have hp64 : p % 2 ^ 64 = p := Nat.mod_eq_of_lt (by omega)
  have hdm0 : dm0 = { capacity := p * 2 ^ 40 / 100, devices := [] } := by
    simp only [newFake, hnot, if_false, htot, hsize, hp64, Nat.mod_eq_of_lt hlt] at h
    exact (Except.ok.inj h).symm
  have hcap0 : dm0.capacity = p * 2 ^ 40 / 100 := by rw [hdm0]
  have hcaplt : dm0.capacity < uint64Size := by
    rw [hcap0, hsize]; omega
  have hused0 : dm0.usedSize ≤ dm0.capacity := by
    rw [hdm0]; simp [fakeDM.usedSize]
  obtain ⟨hc, hu⟩ := run_invariant FakeDevicePathPrefix calls dm0 hcaplt hused0
  have hc2 : (dm0.run FakeDevicePathPrefix calls).capacity = p * 2 ^ 40 / 100 := by
    rw [hc, hcap0]
  have hu2 : (dm0.run FakeDevicePathPrefix calls).usedSize
      ≤ (dm0.run FakeDevicePathPrefix calls).capacity := by rw [hc]; exact hu
  have hget := getCapacity_of_le (dm0.run FakeDevicePathPrefix calls) (by rw [hc]; exact hcaplt) hu2
  refine ⟨hu2, hc2, ?_, ?_⟩
  · simp only [fakeDM.GetCapacity, hget, hc2, htot]
  · simp only [fakeDM.GetCapacity, hget]
    omega

/-- Five calls on the manager of half the capacity, after which only `a`, of 10 bytes, is
registered. -/
theorem run_capacity_witness :
    (({ capacity := 549755813888, devices := [] } : fakeDM).run "/fake/"
        [Call.CreateDevice "a" 10, Call.CreateDevice "b" 20, Call.CreateDevice "a" 5,
         Call.DeleteDevice "b" false, Call.CreateDevice "c" (2 ^ 50)]).usedSize
      ≤ (({ capacity := 549755813888, devices := [] } : fakeDM).run "/fake/"
        [Call.CreateDevice "a" 10, Call.CreateDevice "b" 20, Call.CreateDevice "a" 5,
         Call.DeleteDevice "b" false, Call.CreateDevice "c" (2 ^ 50)]).capacity :=
  (run_capacity "/fake/" 50 { capacity := 549755813888, devices := [] }
    [Call.CreateDevice "a" 10, Call.CreateDevice "b" 20, Call.CreateDevice "a" 5,
     Call.DeleteDevice "b" false, Call.CreateDevice "c" (2 ^ 50)] (by rfl)).1

end Pmdmanager
